import Mathlib

/-!
# crocoddyl: Python action-model wrapper, Euclidean state and wrench cone

A shallow embedding of

* `bindings/python/crocoddyl/core/action-base.hpp` (`ActionModelAbstractTpl_wrap`),
* the Euclidean state `StateVector` documented in
  `bindings/python/crocoddyl/core/states/euclidean.cpp`,
* `include/crocoddyl/multibody/wrench-cone.hxx` (`WrenchConeTpl`),

followed by the properties proved about them.
-/

namespace crocoddyl

/-! ## Scalars and vectors seen by the Python wrapper -/

/-- A floating-point value as far as the wrapper can tell values apart: not-a-number, one of
the two infinities, or a finite value. -/
inductive Scalar where
  | nan
  | negInf
  | posInf
  | finite (q : ℚ)
deriving DecidableEq

namespace Scalar

/-- The C macro `NAN`. -/
def NAN : Scalar := nan

/-- The function `std::isnan`. -/
def isnan : Scalar → Bool
  | nan => true
  | _ => false

/-- Absolute value (`cwiseAbs` on one coefficient); NaN stays NaN. -/
def abs : Scalar → Scalar
  | nan => nan
  | negInf => posInf
  | posInf => posInf
  | finite q => finite |q|

/-- IEEE comparison `a < b`: false as soon as one side is NaN. -/
def lt : Scalar → Scalar → Bool
  | nan, _ => false
  | _, nan => false
  | negInf, negInf => false
  | negInf, _ => true
  | _, negInf => false
  | posInf, _ => false
  | finite _, posInf => true
  | finite a, finite b => decide (a < b)

/-- The function `std::max(a, b)`, that is `(a < b) ? b : a`. -/
def max (a b : Scalar) : Scalar := if lt a b then b else a

/-- Sign of a value that is not NaN: `-1`, `0` or `1`. -/
def sign : Scalar → ℤ
  | nan => 0
  | negInf => -1
  | posInf => 1
  | finite q => if q < 0 then -1 else if q = 0 then 0 else 1

/-- IEEE product. NaN absorbs, `0 * inf` is NaN; the product of two finite values is taken
without rounding. -/
def mul : Scalar → Scalar → Scalar
  | nan, _ => nan
  | _, nan => nan
  | finite a, finite b => finite (a * b)
  | a, b =>
    if sign a * sign b = 0 then nan
    else if sign a * sign b < 0 then negInf else posInf

end Scalar

/-- A dynamic vector `VectorXs`: its coefficients in order; `size()` is the length. -/
abbrev VectorXs := List Scalar

/-- The vector `VectorXs::Ones(n)`. -/
def VectorXs.Ones (n : Nat) : VectorXs := List.replicate n (Scalar.finite 1)

/-- Scalar times vector, `s * v`. -/
def VectorXs.scale (s : Scalar) (v : VectorXs) : VectorXs := v.map (Scalar.mul s)

/-- Eigen's `v.lpNorm<Eigen::Infinity>()`: `0` for an empty vector, otherwise
`v.cwiseAbs().maxCoeff()`, the left-to-right reduction of the absolute values with `std::max`. -/
def VectorXs.lpNormInf : VectorXs → Scalar
  | [] => Scalar.finite 0
  | a :: rest => rest.foldl (fun acc c => Scalar.max acc (Scalar.abs c)) (Scalar.abs a)

/-! ## `ActionModelAbstractTpl_wrap` -/

/-- What a call of the wrapper can end with besides returning. -/
inductive Exception where
  /-- The `crocoddyl::Exception` thrown by `throw_pretty`, with the streamed message. -/
  | invalid_argument (msg : String)
  /-- A failed `eigen_assert`. -/
  | eigen_assert (msg : String)
deriving DecidableEq

deriving instance DecidableEq for Except

/-- One argument handed to a Python override. -/
inductive PyArg where
  | data
  | vec (v : VectorXs)
  | size (n : Nat)
  | scalar (s : Scalar)
deriving DecidableEq

/-- One `bp::call` of the Python override called `name`, with its arguments in order. -/
structure PyCall where
  name : String
  args : List PyArg
deriving DecidableEq

/-- The members of the wrapper the embedded methods read: `state_->get_nx()` and the
dimensions and `unone_` of `ActionModelAbstractTpl`. -/
structure ActionModelAbstractTpl_wrap where
  nx : Nat
  nu_ : Nat
  nr_ : Nat
  ng_ : Nat
  nh_ : Nat
  ng_T_ : Nat
  nh_T_ : Nat
  unone_ : VectorXs

namespace ActionModelAbstractTpl_wrap

/-- The constructor: the base class stores the dimensions, then
`unone_ = NAN * VectorXs::Ones(nu)`. The state enters through `get_nx()` only. -/
def new (nx nu nr ng nh ng_T nh_T : Nat) : ActionModelAbstractTpl_wrap :=
  { nx := nx, nu_ := nu, nr_ := nr, ng_ := ng, nh_ := nh, ng_T_ := ng_T, nh_T_ := nh_T,
    unone_ := VectorXs.scale Scalar.NAN (VectorXs.Ones nu) }

/-- The message streamed into `throw_pretty` when `x` has the wrong size. -/
def xMessage (nx : Nat) : String :=
  "Invalid argument: " ++ ("x has wrong dimension (it should be " ++ toString nx ++ ")")

/-- The message streamed into `throw_pretty` when `u` has the wrong size. -/
def uMessage (nu : Nat) : String :=
  "Invalid argument: " ++ ("u has wrong dimension (it should be " ++ toString nu ++ ")")

/-- The method `calc(data, x, u)` (named `calc_` here, `calc` being reserved in Lean). -/
def calc_ (m : ActionModelAbstractTpl_wrap) (x u : VectorXs) : Except Exception (List PyCall) :=
  if x.length ≠ m.nx then
    .error (.invalid_argument (xMessage m.nx))
  else if u.length ≠ m.nu_ then
    .error (.invalid_argument (uMessage m.nu_))
  else if (VectorXs.lpNormInf u).isnan then
    .ok [{ name := "calc", args := [.data, .vec x] }]
  else
    .ok [{ name := "calc", args := [.data, .vec x, .vec u] }]

/-- The method `calcDiff(data, x, u)`. -/
def calcDiff (m : ActionModelAbstractTpl_wrap) (x u : VectorXs) :
    Except Exception (List PyCall) :=
  if x.length ≠ m.nx then
    .error (.invalid_argument (xMessage m.nx))
  else if u.length ≠ m.nu_ then
    .error (.invalid_argument (uMessage m.nu_))
  else if (VectorXs.lpNormInf u).isnan then
    .ok [{ name := "calcDiff", args := [.data, .vec x] }]
  else
    .ok [{ name := "calcDiff", args := [.data, .vec x, .vec u] }]

/-- The text `msg` names the number `n`: the decimal digits of `n` occur in it. -/
def names (msg : String) (n : Nat) : Prop := (toString n).data <:+: msg.data

instance (msg : String) (n : Nat) : Decidable (names msg n) := by
  unfold names; infer_instance

/-- Assignment `dst = src` to an `Eigen::Ref<VectorXs>`. A `Ref` maps storage it does not own and
cannot be resized: Eigen asserts that both sides have the same size
(`DenseBase::resize() does not actually allow to resize.`), and on success the coefficients of
`src` are copied. The size of `dst` is the same before and after. -/
def refAssign (dst src : VectorXs) : Except Exception VectorXs :=
  if dst.length = src.length then .ok src
  else .error (.eigen_assert "DenseBase::resize() does not actually allow to resize.")

/-- The method `quasiStatic(data, u, x, maxiter, tol)`, returning the final content of the
in-out argument `u` (an `Eigen::Ref<VectorXs>`).

* `override` is the Python override found by `get_override("quasiStatic")`, if there is one,
  as the function from its arguments `(data, x, maxiter, tol)` to the vector it returns;
* `base` is `ActionModelAbstractTpl::quasiStatic`, whose body is not part of this file. -/
def quasiStatic {D : Type} (m : ActionModelAbstractTpl_wrap)
    (override : Option (D → VectorXs → Nat → Scalar → VectorXs))
    (base : D → VectorXs → VectorXs → Nat → Scalar → Except Exception VectorXs)
    (data : D) (u x : VectorXs) (maxiter : Nat) (tol : Scalar) : Except Exception VectorXs :=
  match override with
  | some quasiStatic =>
    match refAssign u (quasiStatic data x maxiter tol) with
    | .error e => .error e
    | .ok u =>
      if u.length ≠ m.nu_ then
        .error (.invalid_argument (uMessage m.nu_))
      else
        .ok u
  | none => base data u x maxiter tol

/-- The method `cast<NewScalar>()`: a new wrapper built by the constructor from the cast state
and the members `nu_`, `nr_`, `ng_`, `nh_`, `ng_T_`, `nh_T_`. The cast of the state is not
part of this file; `nxCast` is the `get_nx()` of the state it returns. -/
def cast (m : ActionModelAbstractTpl_wrap) (nxCast : Nat) : ActionModelAbstractTpl_wrap :=
  new nxCast m.nu_ m.nr_ m.ng_ m.nh_ m.ng_T_ m.nh_T_

end ActionModelAbstractTpl_wrap

/-! ## The Euclidean state `StateVector` -/

/-- Modelled from the spec: the state `StateVector` of `crocoddyl/core/states/euclidean.hpp`,
which is not among the sources; only its Python exposition and docstrings are. It is
configured by the dimension `nx` alone. -/
structure StateVector where
  nx_ : Nat

/-- Modelled from the spec: the selector `firstsecond` of `Jdiff` and `Jintegrate`
("`wrt` selects first argument, second argument, or both"). -/
inductive Jcomponent where
  | both
  | first
  | second
deriving DecidableEq

namespace StateVector

variable {K : Type} [CommRing K]

/-- Modelled from the spec: the invalid-argument failure of a manifold operator on a vector of
the wrong dimension, "naming expected vs. actual size"; the function itself is absent. -/
def wrongDimension (name : String) (expected actual : Nat) : Exception :=
  .invalid_argument (name ++ " has wrong dimension (it should be " ++ toString expected ++
    ", it is " ++ toString actual ++ ")")

/-- Modelled from the spec: `diff(x0, x1)` of `StateVector`, absent from the sources: "plain
subtraction", returning `x1 - x0`, a dimension mismatch being fatal to the call. -/
def diff (s : StateVector) (x0 x1 : List K) : Except Exception (List K) :=
  if x0.length ≠ s.nx_ then .error (wrongDimension "x0" s.nx_ x0.length)
  else if x1.length ≠ s.nx_ then .error (wrongDimension "x1" s.nx_ x1.length)
  else .ok (List.zipWith (fun a b => a - b) x1 x0)

/-- Modelled from the spec: `integrate(x, dx)` of `StateVector`, absent from the sources:
"plain addition", returning `x + dx`, a dimension mismatch being fatal to the call. -/
def integrate (s : StateVector) (x dx : List K) : Except Exception (List K) :=
  if x.length ≠ s.nx_ then .error (wrongDimension "x" s.nx_ x.length)
  else if dx.length ≠ s.nx_ then .error (wrongDimension "dx" s.nx_ dx.length)
  else .ok (List.zipWith (fun a b => a + b) x dx)

/-- Modelled from the spec: the Jacobians a call of `Jdiff` or `Jintegrate` hands back, the
one for the first argument and the one for the second, each present when `firstsecond` asks
for it. -/
structure Jacobians (n : Nat) (K : Type) where
  Jfirst : Option (Matrix (Fin n) (Fin n) K)
  Jsecond : Option (Matrix (Fin n) (Fin n) K)

/-- Modelled from the spec: `Jdiff(x0, x1, firstsecond)` of `StateVector`, absent from the
sources: "Jacobians are the identity (negated for the first argument of `diff`)". -/
def Jdiff (s : StateVector) (x0 x1 : List K) (firstsecond : Jcomponent) :
    Except Exception (Jacobians s.nx_ K) :=
  if x0.length ≠ s.nx_ then .error (wrongDimension "x0" s.nx_ x0.length)
  else if x1.length ≠ s.nx_ then .error (wrongDimension "x1" s.nx_ x1.length)
  else
    match firstsecond with
    | .first => .ok { Jfirst := some (-1), Jsecond := none }
    | .second => .ok { Jfirst := none, Jsecond := some 1 }
    | .both => .ok { Jfirst := some (-1), Jsecond := some 1 }

/-- Modelled from the spec: `Jintegrate(x, dx, firstsecond)` of `StateVector`, absent from the
sources: "for Euclidean manifolds Jacobians are the identity". -/
def Jintegrate (s : StateVector) (x dx : List K) (firstsecond : Jcomponent) :
    Except Exception (Jacobians s.nx_ K) :=
  if x.length ≠ s.nx_ then .error (wrongDimension "x" s.nx_ x.length)
  else if dx.length ≠ s.nx_ then .error (wrongDimension "dx" s.nx_ dx.length)
  else
    match firstsecond with
    | .first => .ok { Jfirst := some 1, Jsecond := none }
    | .second => .ok { Jfirst := none, Jsecond := some 1 }
    | .both => .ok { Jfirst := some 1, Jsecond := some 1 }

/-- The coefficients of a vector of size `n` as a function of the index. -/
def coeff (n : Nat) (v : List K) : Fin n → K := fun i => v.getD i 0

end StateVector

/-! ## The wrench cone `WrenchConeTpl` -/

/-- What `wrench-cone.hxx` takes from outside for the scalar type: `cos`, `sin`, the constant
`M_PI` and `std::numeric_limits<Scalar>::max()`. -/
structure ScalarOps (K : Type) where
  cos : K → K
  sin : K → K
  M_PI : K
  max : K

/-- A fixed-size vector `Vector3s`. -/
structure Vector3s (K : Type) where
  x : K
  y : K
  z : K
deriving DecidableEq

/-- A fixed-size vector `Vector2s`; `box(0)` is `x` and `box(1)` is `y`. -/
structure Vector2s (K : Type) where
  x : K
  y : K
deriving DecidableEq

/-- A 3-by-3 matrix `Matrix3s`, given by its rows. -/
structure Matrix3s (K : Type) where
  r0 : Vector3s K
  r1 : Vector3s K
  r2 : Vector3s K
deriving DecidableEq

/-- A row of the 6-column matrix `MatrixX6s`: the block `head(3)` and the three last
coefficients. -/
structure Row6 (K : Type) where
  head : Vector3s K
  tail : Vector3s K
deriving DecidableEq

section WrenchCone

variable {K : Type} [LinearOrderedField K]

/-- The vector `Vector3s::UnitZ()`. -/
def Vector3s.UnitZ : Vector3s K := ⟨0, 0, 1⟩

/-- Sum `a + b`. -/
def Vector3s.add (a b : Vector3s K) : Vector3s K := ⟨a.x + b.x, a.y + b.y, a.z + b.z⟩

/-- Difference `a - b`. -/
def Vector3s.sub (a b : Vector3s K) : Vector3s K := ⟨a.x - b.x, a.y - b.y, a.z - b.z⟩

/-- Opposite `-a`. -/
def Vector3s.neg (a : Vector3s K) : Vector3s K := ⟨-a.x, -a.y, -a.z⟩

/-- Scalar multiple `s * a`. -/
def Vector3s.scale (s : K) (a : Vector3s K) : Vector3s K := ⟨s * a.x, s * a.y, s * a.z⟩

/-- The matrix `Matrix3s::Identity()`. -/
def Matrix3s.Identity : Matrix3s K := ⟨⟨1, 0, 0⟩, ⟨0, 1, 0⟩, ⟨0, 0, 1⟩⟩

/-- The row `R.row(i)`, for `i` among 0, 1, 2. -/
def Matrix3s.row (R : Matrix3s K) : Fin 3 → Vector3s K
  | 0 => R.r0
  | 1 => R.r1
  | 2 => R.r2

/-- The column `R.col(j)`, for `j` among 0, 1, 2. -/
def Matrix3s.col (R : Matrix3s K) : Fin 3 → Vector3s K
  | 0 => ⟨R.r0.x, R.r1.x, R.r2.x⟩
  | 1 => ⟨R.r0.y, R.r1.y, R.r2.y⟩
  | 2 => ⟨R.r0.z, R.r1.z, R.r2.z⟩

/-- The row vector `v.transpose() * R`. -/
def Vector3s.transposeMul (v : Vector3s K) (R : Matrix3s K) : Vector3s K :=
  ⟨v.x * R.r0.x + v.y * R.r1.x + v.z * R.r2.x,
   v.x * R.r0.y + v.y * R.r1.y + v.z * R.r2.y,
   v.x * R.r0.z + v.y * R.r1.z + v.z * R.r2.z⟩

/-- The zero row, as left by `setZero`. -/
def Row6.Zero : Row6 K := ⟨⟨0, 0, 0⟩, ⟨0, 0, 0⟩⟩

/-- The coefficients of a row in column order. -/
def Row6.toList (r : Row6 K) : List K := [r.head.x, r.head.y, r.head.z, r.tail.x, r.tail.y, r.tail.z]

/-- The members of `WrenchConeTpl`. `A_` is the list of the rows of the matrix, so `A_.rows()`
is its length; `inner_appr_` is declared in the class header, which is not among the
sources, and no constructor of `wrench-cone.hxx` assigns it. -/
structure WrenchConeTpl (K : Type) where
  nf_ : Nat
  A_ : List (Row6 K)
  ub_ : List K
  lb_ : List K
  R_ : Matrix3s K
  box_ : Vector2s K
  mu_ : K
  inner_appr_ : Bool
  min_nforce_ : K
  max_nforce_ : K

/-- Write access `v(i) = a` to a dynamic vector, or `A.row(i) << ...` to a matrix: Eigen
asserts that the index is within the allocated size. -/
def writeAt {α : Type} (l : List α) (i : Nat) (a : α) : Option (List α) :=
  if i < l.length then some (l.set i a) else none

/-- The assignment `A.row(i).head(3) = v`, the last three coefficients of the row being kept;
Eigen asserts that the row exists. -/
def writeHead (A : List (Row6 K)) (i : Nat) (v : Vector3s K) : Option (List (Row6 K)) :=
  match A[i]? with
  | some r => some (A.set i { r with head := v })
  | none => none

/-- One turn `i` of the loop over the friction-cone facets in `update`. -/
def frictionFacet (ops : ScalarOps K) (R_ : Matrix3s K) (mu theta : K) (A_ : List (Row6 K))
    (i : Nat) : Option (List (Row6 K)) := do
  let theta_i := theta * (i : K)
  let tsurf_i : Vector3s K := ⟨ops.cos theta_i, ops.sin theta_i, 0⟩
  let mu_nsurf : Vector3s K := Vector3s.scale (-mu) Vector3s.UnitZ
  let A_ ← writeHead A_ (2 * i) ((mu_nsurf.add tsurf_i).transposeMul R_)
  writeHead A_ (2 * i + 1) ((mu_nsurf.sub tsurf_i).transposeMul R_)

/-- The friction-cone segment of `update`: the loop over the facets, then the normal-force
row `A_.row(nf_).head(3) = R_.row(2)`. -/
def frictionCone (ops : ScalarOps K) (nf_ : Nat) (R_ : Matrix3s K) (mu theta : K)
    (A_ : List (Row6 K)) : Option (List (Row6 K)) := do
  let A_ ← (List.range (nf_ / 2)).foldlM (frictionFacet ops R_ mu theta) A_
  writeHead A_ nf_ (R_.row 2)

/-- The centre-of-pressure segment of `update`: the rows `nf_ + 1` to `nf_ + 4`. -/
def copRows (nf_ : Nat) (R_ : Matrix3s K) (L W : K) (A_ : List (Row6 K)) :
    Option (List (Row6 K)) := do
  let A_ ← writeAt A_ (nf_ + 1) (Row6.mk (Vector3s.scale (-W) (R_.col 2)) (R_.col 0))
  let A_ ← writeAt A_ (nf_ + 2) (Row6.mk (Vector3s.scale (-W) (R_.col 2)) (R_.col 0).neg)
  let A_ ← writeAt A_ (nf_ + 3) (Row6.mk (Vector3s.scale (-L) (R_.col 2)) (R_.col 1))
  writeAt A_ (nf_ + 4) (Row6.mk (Vector3s.scale (-L) (R_.col 2)) (R_.col 1).neg)

/-- The minimum-torque part of the yaw segment of `update`: the rows `nf_ + 5` to `nf_ + 8`. -/
def yawMinRows (nf_ : Nat) (R_ : Matrix3s K) (mu L W mu_LW : K) (A_ : List (Row6 K)) :
    Option (List (Row6 K)) := do
  let A_ ← writeAt A_ (nf_ + 5)
    (Row6.mk (Vector3s.transposeMul ⟨W, L, mu_LW⟩ R_) (Vector3s.transposeMul ⟨-mu, -mu, -1⟩ R_))
  let A_ ← writeAt A_ (nf_ + 6)
    (Row6.mk (Vector3s.transposeMul ⟨W, -L, mu_LW⟩ R_) (Vector3s.transposeMul ⟨-mu, mu, -1⟩ R_))
  let A_ ← writeAt A_ (nf_ + 7)
    (Row6.mk (Vector3s.transposeMul ⟨-W, L, mu_LW⟩ R_) (Vector3s.transposeMul ⟨mu, -mu, -1⟩ R_))
  writeAt A_ (nf_ + 8)
    (Row6.mk (Vector3s.transposeMul ⟨-W, -L, mu_LW⟩ R_) (Vector3s.transposeMul ⟨mu, mu, -1⟩ R_))

/-- The maximum-torque part of the yaw segment of `update`: the rows `nf_ + 9` to `nf_ + 12`. -/
def yawMaxRows (nf_ : Nat) (R_ : Matrix3s K) (mu L W mu_LW : K) (A_ : List (Row6 K)) :
    Option (List (Row6 K)) := do
  let A_ ← writeAt A_ (nf_ + 9)
    (Row6.mk (Vector3s.transposeMul ⟨W, L, mu_LW⟩ R_) (Vector3s.transposeMul ⟨mu, mu, 1⟩ R_))
  let A_ ← writeAt A_ (nf_ + 10)
    (Row6.mk (Vector3s.transposeMul ⟨W, -L, mu_LW⟩ R_) (Vector3s.transposeMul ⟨mu, -mu, 1⟩ R_))
  let A_ ← writeAt A_ (nf_ + 11)
    (Row6.mk (Vector3s.transposeMul ⟨-W, L, mu_LW⟩ R_) (Vector3s.transposeMul ⟨-mu, mu, 1⟩ R_))
  writeAt A_ (nf_ + 12)
    (Row6.mk (Vector3s.transposeMul ⟨-W, -L, mu_LW⟩ R_) (Vector3s.transposeMul ⟨-mu, -mu, 1⟩ R_))

namespace WrenchConeTpl

/-- The method `update(R, mu, box_size, min_nforce, max_nforce)`, its body cut into the
segments above in source order; `none` when a written row or entry lies outside the
allocated `A_`, `ub_` or `lb_`. The warnings printed to `std::cerr` are left out. -/
def update (ops : ScalarOps K) (c : WrenchConeTpl K) (R : Matrix3s K) (_mu : K)
    (box_size : Vector2s K) (min_nforce max_nforce : K) : Option (WrenchConeTpl K) :=
  let R_ : Matrix3s K := R
  let mu_ : K := _mu
  let box_ : Vector2s K := box_size
  -- Initialize the matrix and bounds
  let A_ : List (Row6 K) := c.A_.map (fun _ => Row6.Zero)
  let ub_ : List K := c.ub_.map (fun _ => (0 : K))
  let lb_ : List K := (c.lb_.map (fun _ => (1 : K))).map (fun v => v * -ops.max)
  let min_nforce_ : K := if min_nforce < 0 then 0 else min_nforce
  let max_nforce_ : K := if max_nforce < 0 then ops.max else max_nforce
  let theta : K := 2 * ops.M_PI / (c.nf_ : K)
  let mu : K := if c.inner_appr_ then mu_ * ops.cos (theta / 2) else mu_
  -- Friction cone information
  (frictionCone ops c.nf_ R_ mu theta A_).bind fun A_ =>
  (writeAt lb_ c.nf_ min_nforce_).bind fun lb_ =>
  (writeAt ub_ c.nf_ max_nforce_).bind fun ub_ =>
  -- CoP information
  let L : K := box_.x / 2
  let W : K := box_.y / 2
  (copRows c.nf_ R_ L W A_).bind fun A_ =>
  -- Yaw-tau information
  let mu_LW : K := -mu * (L + W)
  (yawMinRows c.nf_ R_ mu L W mu_LW A_).bind fun A_ =>
  (yawMaxRows c.nf_ R_ mu L W mu_LW A_).bind fun A_ =>
  some { nf_ := c.nf_, A_ := A_, ub_ := ub_, lb_ := lb_, R_ := R_, box_ := box_, mu_ := mu_,
         inner_appr_ := c.inner_appr_, min_nforce_ := min_nforce_,
         max_nforce_ := max_nforce_ }

/-- The constructor `WrenchConeTpl(R, mu, box_size, nf, min_nforce, max_nforce)`. The members
`A_`, `ub_` and `lb_` are allocated from `nf` as passed, before the body replaces an odd
`nf_` by 4. `inner_appr` stands for the value of the member `inner_appr_`, which the
constructor does not assign; the members `update` overwrites start with the values it will
give them. `std::size_t` is a natural number: a matrix of `2^64` rows cannot be allocated. -/
def new (ops : ScalarOps K) (inner_appr : Bool) (R : Matrix3s K) (mu : K)
    (box_size : Vector2s K) (nf : Nat) (min_nforce max_nforce : K) :
    Option (WrenchConeTpl K) :=
  let nf_ := nf
  let A_ : List (Row6 K) := List.replicate (nf_ + 13) Row6.Zero
  let ub_ : List K := List.replicate (nf_ + 13) 0
  let lb_ : List K := List.replicate (nf_ + 13) 0
  let nf_ := if nf_ % 2 ≠ 0 then 4 else nf_
  update ops
    { nf_ := nf_, A_ := A_, ub_ := ub_, lb_ := lb_, R_ := R, box_ := box_size, mu_ := mu,
      inner_appr_ := inner_appr, min_nforce_ := min_nforce, max_nforce_ := max_nforce }
    R mu box_size min_nforce max_nforce

/-- The default constructor `WrenchConeTpl()`. -/
def default (ops : ScalarOps K) (inner_appr : Bool) : Option (WrenchConeTpl K) :=
  let nf_ := 4
  let A_ : List (Row6 K) := List.replicate (nf_ + 13) Row6.Zero
  let ub_ : List K := List.replicate (nf_ + 13) 0
  let lb_ : List K := List.replicate (nf_ + 13) 0
  update ops
    { nf_ := nf_, A_ := A_, ub_ := ub_, lb_ := lb_, R_ := Matrix3s.Identity,
      box_ := ⟨1 / 10, 5 / 100⟩, mu_ := 7 / 10, inner_appr_ := inner_appr, min_nforce_ := 0,
      max_nforce_ := ops.max }
    Matrix3s.Identity (7 / 10) ⟨1 / 10, 5 / 100⟩ 0 ops.max

/-- The accessor `get_A()`. -/
def get_A (c : WrenchConeTpl K) : List (Row6 K) := c.A_

/-- The accessor `get_ub()`. -/
def get_ub (c : WrenchConeTpl K) : List K := c.ub_

/-- The accessor `get_lb()`. -/
def get_lb (c : WrenchConeTpl K) : List K := c.lb_

/-- The accessor `get_R()`. -/
def get_R (c : WrenchConeTpl K) : Matrix3s K := c.R_

/-- The accessor `get_box()`. -/
def get_box (c : WrenchConeTpl K) : Vector2s K := c.box_

/-- The accessor `get_mu()`. -/
def get_mu (c : WrenchConeTpl K) : K := c.mu_

/-- The accessor `get_nf()`. -/
def get_nf (c : WrenchConeTpl K) : Nat := c.nf_

/-- The accessor `get_min_nforce()`. -/
def get_min_nforce (c : WrenchConeTpl K) : K := c.min_nforce_

/-- The accessor `get_max_nforce()`. -/
def get_max_nforce (c : WrenchConeTpl K) : K := c.max_nforce_

/-- The setter `set_R(R)`. -/
def set_R (ops : ScalarOps K) (c : WrenchConeTpl K) (R : Matrix3s K) : Option (WrenchConeTpl K) :=
  update ops c R c.mu_ c.box_ c.min_nforce_ c.max_nforce_

/-- The setter `set_box(box)`. -/
def set_box (ops : ScalarOps K) (c : WrenchConeTpl K) (box : Vector2s K) :
    Option (WrenchConeTpl K) :=
  update ops c c.R_ c.mu_ box c.min_nforce_ c.max_nforce_

/-- The setter `set_mu(mu)`. -/
def set_mu (ops : ScalarOps K) (c : WrenchConeTpl K) (mu : K) : Option (WrenchConeTpl K) :=
  update ops c c.R_ mu c.box_ c.min_nforce_ c.max_nforce_

/-- The setter `set_min_nforce(min_nforce)`. -/
def set_min_nforce (ops : ScalarOps K) (c : WrenchConeTpl K) (min_nforce : K) :
    Option (WrenchConeTpl K) :=
  update ops c c.R_ c.mu_ c.box_ min_nforce c.max_nforce_

/-- The setter `set_max_nforce(max_nforce)`. -/
def set_max_nforce (ops : ScalarOps K) (c : WrenchConeTpl K) (max_nforce : K) :
    Option (WrenchConeTpl K) :=
  update ops c c.R_ c.mu_ c.box_ c.min_nforce_ max_nforce

/-- Every row and entry `update` writes is allocated: the rows of `A_` up to `nf_ + 12` and
the entry `nf_` of `ub_` and `lb_`. -/
def allocated (c : WrenchConeTpl K) : Prop :=
  c.nf_ + 12 < c.A_.length ∧ c.nf_ < c.ub_.length ∧ c.nf_ < c.lb_.length

instance (c : WrenchConeTpl K) : Decidable c.allocated := by
  unfold allocated; infer_instance

end WrenchConeTpl

/-- Dot product of two 3-vectors. -/
def Vector3s.dot (a b : Vector3s K) : K := a.x * b.x + a.y * b.y + a.z * b.z

/-- The entry of `A * w` given by the row `r` of `A`, for a wrench `w` whose `head` is the
force and whose `tail` is the torque. -/
def Row6.dot (r w : Row6 K) : K := r.head.dot w.head + r.tail.dot w.tail

/-- The product `A * w` of the matrix with rows `A` and the wrench `w`. -/
def mulWrench (A : List (Row6 K)) (w : Row6 K) : List K := A.map (fun r => r.dot w)

/-- A row with force part `a` and torque part `b` right-multiplied by the 6-by-6
block-diagonal matrix `diag(R, R)`: the parts become `a^T R` and `b^T R`. -/
def Row6.mulBlockDiag (r : Row6 K) (R : Matrix3s K) : Row6 K :=
  ⟨r.head.transposeMul R, r.tail.transposeMul R⟩

end WrenchCone

/-! ## The scalar type `double` at the angles of a cone with four facets -/

/-- The constant `M_PI` as the IEEE `double` it is: `0x1.921fb54442d18p+1`. -/
def M_PI_double : ℚ := 884279719003555 / 2 ^ 48

/-- The value of the C function `cos` on the two `double` angles `update` forms for `nf = 4`:
`cos(0) = 1` and `cos(2 * M_PI / 4) = 0x1.1a62633145c07p-54`, about `6.1e-17`. No other angle
is tabulated (the value given there is 0). -/
def cosDouble (t : ℚ) : ℚ :=
  if t = 0 then 1 else if t = 2 * M_PI_double / 4 then 4967757600021511 / 2 ^ 106 else 0

/-- The value of the C function `sin` on the two `double` angles `update` forms for `nf = 4`:
`sin(0) = 0` and `sin(2 * M_PI / 4) = 1`. No other angle is tabulated (the value given there
is 0). -/
def sinDouble (t : ℚ) : ℚ :=
  if t = 0 then 0 else if t = 2 * M_PI_double / 4 then 1 else 0

/-- The scalar operations of `Scalar = double`, the values of `double` being rational
numbers: `M_PI`, the tabulated `cos` and `sin`, and
`std::numeric_limits<double>::max() = 2^1024 - 2^971`. -/
def doubleOps : ScalarOps ℚ :=
  { cos := cosDouble, sin := sinDouble, M_PI := M_PI_double, max := 2 ^ 1024 - 2 ^ 971 }

/-! ## `ScaleNumerics` -/

/-- The scalar types `ScaleNumerics` can be instantiated with: `float`, `double`, any other
plain type (told apart by a tag), and the wrappers `CppAD::AD<T>` and `CppAD::cg::CG<T>`. -/
inductive ScalarType where
  | float
  | double
  | other (tag : Nat)
  | AD (T : ScalarType)
  | CG (T : ScalarType)
deriving DecidableEq

/-- The trait `ScalarBaseType<T>::type`. The primary template gives `T` itself; the two
specialisations, compiled only under `CROCODDYL_WITH_CODEGEN` (`codegen`), give the base type
of the wrapped `T`. -/
def ScalarBaseType (codegen : Bool) : ScalarType → ScalarType
  | .AD T => if codegen then ScalarBaseType codegen T else .AD T
  | .CG T => if codegen then ScalarBaseType codegen T else .CG T
  | T => T

/-- The base scalar type in the words of the specification: every nested `CppAD::AD<>` and
`CppAD::cg::CG<>` wrapper stripped. -/
def stripWrappers : ScalarType → ScalarType
  | .AD T => stripWrappers T
  | .CG T => stripWrappers T
  | T => T

/-- The expression `static_cast<Scalar>(value)`: the target type and the `double` value
converted to it, a `double` being taken as a rational number. -/
structure StaticCast where
  target : ScalarType
  value : ℚ
deriving DecidableEq

/-- The function `ScaleNumerics<Scalar>(base_value, float_multiplier)`. -/
def ScaleNumerics (codegen : Bool) (Scalar : ScalarType) (base_value float_multiplier : ℚ) :
    StaticCast :=
  if ScalarBaseType codegen Scalar = .float then
    ⟨Scalar, base_value * float_multiplier⟩
  else
    ⟨Scalar, base_value⟩

/-- The call `ScaleNumerics<Scalar>(base_value)`, with the default `float_multiplier = 1e3`. -/
def ScaleNumericsDefault (codegen : Bool) (Scalar : ScalarType) (base_value : ℚ) : StaticCast :=
  ScaleNumerics codegen Scalar base_value 1000

end crocoddyl

/-! # Properties -/

namespace crocoddyl

namespace ActionModelAbstractTpl_wrap

/-! ## Size checks and dispatch of `calc` and `calcDiff` -/

theorem unone_new (nx nu nr ng nh ng_T nh_T : Nat) :
    (new nx nu nr ng nh ng_T nh_T).unone_ = List.replicate nu Scalar.nan := by
  simp [new, VectorXs.scale, VectorXs.Ones, Scalar.NAN, Scalar.mul]

theorem foldl_max_nan (v : VectorXs) (h : ∀ s ∈ v, s = Scalar.nan) :
    v.foldl (fun acc c => Scalar.max acc (Scalar.abs c)) Scalar.nan = Scalar.nan := by
  induction v with
  | nil => rfl
  | cons a rest ih =>
    have ha : a = Scalar.nan := h a (List.mem_cons_self _ _)
    subst ha
    simpa [List.foldl, Scalar.max, Scalar.abs, Scalar.lt] using
      ih (fun s hs => h s (List.mem_cons_of_mem _ hs))

theorem lpNormInf_replicate_nan (n : Nat) :
    (VectorXs.lpNormInf (List.replicate (n + 1) Scalar.nan)).isnan = true := by
  have h := foldl_max_nan (List.replicate n Scalar.nan) (fun s hs => (List.mem_replicate.1 hs).2)
  simp only [List.replicate_succ, VectorXs.lpNormInf]
  show (List.foldl (fun acc c => Scalar.max acc (Scalar.abs c)) Scalar.nan
    (List.replicate n Scalar.nan)).isnan = true
  rw [h]
  rfl

theorem isnan_abs (s : Scalar) : (Scalar.abs s).isnan = s.isnan := by
  cases s <;> rfl

theorem isnan_max (a b : Scalar) (ha : a.isnan = false) (hb : b.isnan = false) :
    (Scalar.max a b).isnan = false := by
  unfold Scalar.max
  split <;> assumption

theorem foldl_max_not_nan (v : VectorXs) (acc : Scalar) (hacc : acc.isnan = false)
    (h : ∀ s ∈ v, s.isnan = false) :
    (v.foldl (fun acc c => Scalar.max acc (Scalar.abs c)) acc).isnan = false := by
  induction v generalizing acc with
  | nil => simpa using hacc
  | cons a rest ih =>
    simp only [List.foldl]
    apply ih
    · apply isnan_max _ _ hacc
      rw [isnan_abs]
      exact h a (List.mem_cons_self _ _)
    · exact fun s hs => h s (List.mem_cons_of_mem _ hs)

theorem lpNormInf_not_nan (u : VectorXs) (h : ∀ s ∈ u, s.isnan = false) :
    (VectorXs.lpNormInf u).isnan = false := by
  cases u with
  | nil => rfl
  | cons a rest =>
    simp only [VectorXs.lpNormInf]
    apply foldl_max_not_nan
    · rw [isnan_abs]
      exact h a (List.mem_cons_self _ _)
    · exact fun s hs => h s (List.mem_cons_of_mem _ hs)

theorem names_xMessage (n : Nat) : names (xMessage n) n := by
  refine ⟨("Invalid argument: " ++ "x has wrong dimension (it should be ").data, ")".data, ?_⟩
  simp [xMessage, String.data_append]

theorem names_uMessage (n : Nat) : names (uMessage n) n := by
  refine ⟨("Invalid argument: " ++ "u has wrong dimension (it should be ").data, ")".data, ?_⟩
  simp [uMessage, String.data_append]

/-- C1: `calc(data, x, u)` ends with an error exactly when `x.size() != nx` or
`u.size() != nu`, and the error is then an invalid-argument one; when both sizes match
the wrapper raises nothing and performs exactly one call of the Python override `calc`. -/
theorem calc_raises_iff_wrong_size (m : ActionModelAbstractTpl_wrap) (x u : VectorXs) :
    ((∃ e, calc_ m x u = .error e) ↔ (x.length ≠ m.nx ∨ u.length ≠ m.nu_)) ∧
    (∀ e, calc_ m x u = .error e → ∃ msg, e = .invalid_argument msg) ∧
    (x.length = m.nx → u.length = m.nu_ →
      ∃ c, calc_ m x u = .ok [c] ∧ c.name = "calc") := by
  unfold calc_
  by_cases hx : x.length = m.nx <;> by_cases hu : u.length = m.nu_ <;>
    cases hn : (VectorXs.lpNormInf u).isnan <;> simp [hx, hu, hn]

/-- Witness of C1 at `nx = 2`, `nu = 1`. -/
theorem calc_raises_iff_wrong_size_witness :
    ∃ c, calc_ (new 2 1 1 0 0 0 0) [Scalar.finite 0, Scalar.finite 1] [Scalar.finite 3]
      = .ok [c] ∧ c.name = "calc" :=
  (calc_raises_iff_wrong_size (new 2 1 1 0 0 0 0) [Scalar.finite 0, Scalar.finite 1]
    [Scalar.finite 3]).2.2 (by decide) (by decide)

/-- C2, as stated, fails: with `nx = 3` and an `x` of size 2 the message of `calc` is
"Invalid argument: x has wrong dimension (it should be 3)", which names 3 and not 2. -/
theorem calc_message_omits_actual_size :
    calc_ (new 3 1 1 0 0 0 0) [Scalar.finite 0, Scalar.finite 0] [Scalar.finite 0]
      = .error (.invalid_argument "Invalid argument: x has wrong dimension (it should be 3)") ∧
    names "Invalid argument: x has wrong dimension (it should be 3)" 3 ∧
    ¬ names "Invalid argument: x has wrong dimension (it should be 3)" 2 := by
  decide

/-- C2, amended: when `calc` or `calcDiff` rejects an `x` (resp. a `u`) of the wrong size,
the message is the fixed text with the expected size `nx` (resp. `nu`), which it names; it
is determined by the expected size alone: any other rejected `x` (resp. `u`), whatever its
actual size, gets the same message. -/
theorem wrong_size_message_names_expected (m : ActionModelAbstractTpl_wrap) (x u : VectorXs) :
    (x.length ≠ m.nx →
      calc_ m x u = .error (.invalid_argument (xMessage m.nx)) ∧
      calcDiff m x u = .error (.invalid_argument (xMessage m.nx)) ∧
      ∀ x2 u2 : VectorXs, x2.length ≠ m.nx →
        calc_ m x2 u2 = calc_ m x u ∧ calcDiff m x2 u2 = calcDiff m x u) ∧
    (x.length = m.nx → u.length ≠ m.nu_ →
      calc_ m x u = .error (.invalid_argument (uMessage m.nu_)) ∧
      calcDiff m x u = .error (.invalid_argument (uMessage m.nu_)) ∧
      ∀ x2 u2 : VectorXs, x2.length = m.nx → u2.length ≠ m.nu_ →
        calc_ m x2 u2 = calc_ m x u ∧ calcDiff m x2 u2 = calcDiff m x u) ∧
    names (xMessage m.nx) m.nx ∧ names (uMessage m.nu_) m.nu_ := by
  refine ⟨fun hx => ⟨?_, ?_, fun x2 u2 hx2 => ?_⟩, fun hx hu => ⟨?_, ?_, fun x2 u2 hx2 hu2 => ?_⟩,
    names_xMessage _, names_uMessage _⟩
  · simp [calc_, hx]
  · simp [calcDiff, hx]
  · simp [calc_, calcDiff, hx, hx2]
  · simp [calc_, hx, hu]
  · simp [calcDiff, hx, hu]
  · simp [calc_, calcDiff, hx, hu, hx2, hu2]

/-- Witness of the amended C2 at `nx = 3`: an `x` of size 2 is rejected by `calc` with the
message for 3, and an `x` of size 5 gets the same result; likewise at `nu = 1` for a `u` of
size 3 and a `u` of size 2. -/
theorem wrong_size_message_names_expected_witness :
    (calc_ (new 3 1 1 0 0 0 0) [Scalar.finite 0, Scalar.finite 0] []
        = .error (.invalid_argument (xMessage 3)) ∧
      calc_ (new 3 1 1 0 0 0 0)
          [Scalar.finite 0, Scalar.finite 0, Scalar.finite 0, Scalar.finite 0, Scalar.finite 0]
          [Scalar.finite 0]
        = calc_ (new 3 1 1 0 0 0 0) [Scalar.finite 0, Scalar.finite 0] []) ∧
    (calcDiff (new 0 1 1 0 0 0 0) [] [Scalar.finite 0, Scalar.finite 0, Scalar.finite 0]
        = .error (.invalid_argument (uMessage 1)) ∧
      calcDiff (new 0 1 1 0 0 0 0) [] [Scalar.finite 0, Scalar.finite 0]
        = calcDiff (new 0 1 1 0 0 0 0) []
            [Scalar.finite 0, Scalar.finite 0, Scalar.finite 0]) :=
  ⟨⟨((wrong_size_message_names_expected (new 3 1 1 0 0 0 0)
        [Scalar.finite 0, Scalar.finite 0] []).1 (by decide)).1,
    (((wrong_size_message_names_expected (new 3 1 1 0 0 0 0)
        [Scalar.finite 0, Scalar.finite 0] []).1 (by decide)).2.2
      [Scalar.finite 0, Scalar.finite 0, Scalar.finite 0, Scalar.finite 0, Scalar.finite 0]
      [Scalar.finite 0] (by decide)).1⟩,
   ⟨((wrong_size_message_names_expected (new 0 1 1 0 0 0 0) []
        [Scalar.finite 0, Scalar.finite 0, Scalar.finite 0]).2.1 (by decide) (by decide)).2.1,
    (((wrong_size_message_names_expected (new 0 1 1 0 0 0 0) []
        [Scalar.finite 0, Scalar.finite 0, Scalar.finite 0]).2.1 (by decide) (by decide)).2.2
      [] [Scalar.finite 0, Scalar.finite 0] (by decide) (by decide)).2⟩⟩

/-- C3, as stated, fails at `nu = 0`: `unone_` is then the empty vector, whose infinity norm
is 0 and not NaN, and `calc` with `u = unone_` calls the override with `(data, x, u)`
instead of `(data, x)`. -/
theorem calc_unone_zero_controls :
    (new 1 0 1 0 0 0 0).unone_ = [] ∧
    calc_ (new 1 0 1 0 0 0 0) [Scalar.finite 0] (new 1 0 1 0 0 0 0).unone_
      = .ok [{ name := "calc", args := [.data, .vec [Scalar.finite 0], .vec []] }] ∧
    calc_ (new 1 0 1 0 0 0 0) [Scalar.finite 0] (new 1 0 1 0 0 0 0).unone_
      ≠ .ok [{ name := "calc", args := [.data, .vec [Scalar.finite 0]] }] := by
  decide

/-- C3, amended: for every control dimension `nu >= 1` and every `x` of size `nx`, `calc`
with `u = unone_` (the all-NaN vector of size `nu`) calls the override with `(data, x)`;
and for every `nu`, 0 included, `calc` with a `u` of size `nu` without NaN entry calls it
with `(data, x, u)`. -/
theorem calc_dispatch (nx nu nr ng nh ng_T nh_T : Nat) (x : VectorXs) (hx : x.length = nx) :
    (new nx nu nr ng nh ng_T nh_T).unone_ = List.replicate nu Scalar.nan ∧
    (1 ≤ nu →
      calc_ (new nx nu nr ng nh ng_T nh_T) x (new nx nu nr ng nh ng_T nh_T).unone_
        = .ok [{ name := "calc", args := [.data, .vec x] }]) ∧
    (∀ u : VectorXs, u.length = nu → (∀ s ∈ u, s.isnan = false) →
      calc_ (new nx nu nr ng nh ng_T nh_T) x u
        = .ok [{ name := "calc", args := [.data, .vec x, .vec u] }]) := by
  refine ⟨unone_new _ _ _ _ _ _ _, fun hnu => ?_, fun u hu hnan => ?_⟩
  · obtain ⟨k, rfl⟩ : ∃ k, nu = k + 1 := ⟨nu - 1, by omega⟩
    rw [unone_new]
    have h := lpNormInf_replicate_nan k
    simp [calc_, new, hx, h]
  · have h := lpNormInf_not_nan u hnan
    simp [calc_, new, hx, hu, h]

/-- Witness of the amended C3 at `nx = 1`, `nu = 2`. -/
theorem calc_dispatch_witness :
    calc_ (new 1 2 1 0 0 0 0) [Scalar.finite 5] (new 1 2 1 0 0 0 0).unone_
      = .ok [{ name := "calc", args := [.data, .vec [Scalar.finite 5]] }] ∧
    calc_ (new 1 2 1 0 0 0 0) [Scalar.finite 5] [Scalar.finite 0, Scalar.posInf]
      = .ok [{ name := "calc",
               args := [.data, .vec [Scalar.finite 5], .vec [Scalar.finite 0, Scalar.posInf]] }] :=
  ⟨(calc_dispatch 1 2 1 0 0 0 0 [Scalar.finite 5] (by decide)).2.1 (by decide),
   (calc_dispatch 1 2 1 0 0 0 0 [Scalar.finite 5] (by decide)).2.2
      [Scalar.finite 0, Scalar.posInf] (by decide) (by decide)⟩

/-- C4: `calcDiff` validates and dispatches like `calc`: it ends with the error `e` exactly
when `calc` does (same message, the size of `x` being checked before that of `u`), and on
accepted inputs it calls the control-omitted override `calcDiff` exactly when `calc` calls
the control-omitted override `calc`; in all, `calcDiff` is `calc` with the override
renamed. -/
theorem calcDiff_like_calc (m : ActionModelAbstractTpl_wrap) (x u : VectorXs) :
    (∀ e, calcDiff m x u = .error e ↔ calc_ m x u = .error e) ∧
    (x.length ≠ m.nx → calcDiff m x u = .error (.invalid_argument (xMessage m.nx))) ∧
    (calcDiff m x u = .ok [{ name := "calcDiff", args := [.data, .vec x] }] ↔
      calc_ m x u = .ok [{ name := "calc", args := [.data, .vec x] }]) ∧
    (calcDiff m x u = .ok [{ name := "calcDiff", args := [.data, .vec x, .vec u] }] ↔
      calc_ m x u = .ok [{ name := "calc", args := [.data, .vec x, .vec u] }]) ∧
    calcDiff m x u
      = (calc_ m x u).map (List.map fun c => { c with name := "calcDiff" }) := by
  unfold calc_ calcDiff
  by_cases hx : x.length = m.nx <;> by_cases hu : u.length = m.nu_ <;>
    cases hn : (VectorXs.lpNormInf u).isnan <;>
    simp [hx, hu, hn, Except.map]

/-- Witness of C4: an `x` of the wrong size is rejected by `calcDiff` with the message of
`calc`, even when `u` has the wrong size too. -/
theorem calcDiff_like_calc_witness :
    calcDiff (new 2 1 1 0 0 0 0) [] [] = .error (.invalid_argument (xMessage 2)) :=
  (calcDiff_like_calc (new 2 1 1 0 0 0 0) [] []).2.1 (by decide)

/-! ## `quasiStatic` -/

/-- What `quasiStatic` does in each case: without override it is the base-class method on
the same arguments; with an override whose result has the size of `u`, it raises the
invalid-argument error exactly when that size is not `nu` and otherwise returns the result;
with an override whose result has another size than `u`, the assignment to the
`Eigen::Ref` fails. -/
theorem quasiStatic_cases {D : Type} (m : ActionModelAbstractTpl_wrap)
    (f : D → VectorXs → Nat → Scalar → VectorXs)
    (base : D → VectorXs → VectorXs → Nat → Scalar → Except Exception VectorXs)
    (data : D) (u x : VectorXs) (maxiter : Nat) (tol : Scalar) :
    quasiStatic m none base data u x maxiter tol = base data u x maxiter tol ∧
    ((f data x maxiter tol).length = u.length → u.length = m.nu_ →
      quasiStatic m (some f) base data u x maxiter tol = .ok (f data x maxiter tol)) ∧
    ((f data x maxiter tol).length = u.length → u.length ≠ m.nu_ →
      quasiStatic m (some f) base data u x maxiter tol
        = .error (.invalid_argument (uMessage m.nu_))) ∧
    ((f data x maxiter tol).length ≠ u.length →
      quasiStatic m (some f) base data u x maxiter tol
        = .error (.eigen_assert "DenseBase::resize() does not actually allow to resize.")) := by
  refine ⟨rfl, fun h hu => ?_, fun h hu => ?_, fun h => ?_⟩
  · simp [quasiStatic, refAssign, h, hu]
  · simp [quasiStatic, refAssign, h, hu]
  · have h2 : ¬ u.length = (f data x maxiter tol).length := fun e => h e.symm
    simp [quasiStatic, refAssign, h2]

/-- C10 at `nu = 2`: the caller passes a `u` of size 2 and the override returns a vector of
size 3. No invalid-argument error is raised: the assignment `u = ...` to the fixed-size
`Eigen::Ref` comes first and fails Eigen's size assertion. -/
theorem quasiStatic_wrong_size_result :
    quasiStatic (new 1 2 1 0 0 0 0)
      (some fun (_ : Unit) _ _ _ => [Scalar.finite 1, Scalar.finite 2, Scalar.finite 3])
      (fun _ u _ _ _ => .ok u) () [Scalar.finite 0, Scalar.finite 0] [Scalar.finite 0] 100
      (Scalar.finite 0)
      = .error (.eigen_assert "DenseBase::resize() does not actually allow to resize.") ∧
    quasiStatic (new 1 2 1 0 0 0 0)
      (some fun (_ : Unit) _ _ _ => [Scalar.finite 1, Scalar.finite 2, Scalar.finite 3])
      (fun _ u _ _ _ => .ok u) () [Scalar.finite 0, Scalar.finite 0] [Scalar.finite 0] 100
      (Scalar.finite 0)
      ≠ .error (.invalid_argument (uMessage 2)) := by
  decide

end ActionModelAbstractTpl_wrap

namespace StateVector

variable {K : Type} [CommRing K]

/-! ## Round trips and Jacobians of the Euclidean state -/

theorem zipWith_add_sub (x y : List K) (h : x.length = y.length) :
    List.zipWith (fun a b => a + b) x (List.zipWith (fun a b => a - b) y x) = y := by
  induction x generalizing y with
  | nil =>
    cases y with
    | nil => rfl
    | cons b y => simp at h
  | cons a x ih =>
    cases y with
    | nil => simp at h
    | cons b y =>
      simp only [List.length_cons, Nat.add_right_cancel_iff] at h
      simp [ih y h]

theorem zipWith_sub_add (x dx : List K) (h : x.length = dx.length) :
    List.zipWith (fun a b => a - b) (List.zipWith (fun a b => a + b) x dx) x = dx := by
  induction x generalizing dx with
  | nil =>
    cases dx with
    | nil => rfl
    | cons b y => simp at h
  | cons a x ih =>
    cases dx with
    | nil => simp at h
    | cons b y =>
      simp only [List.length_cons, Nat.add_right_cancel_iff] at h
      simp [ih y h]

theorem coeff_zipWith (f : K → K → K) (n : Nat) (a b : List K) (ha : a.length = n)
    (hb : b.length = n) (i : Fin n) :
    coeff n (List.zipWith f a b) i = f (coeff n a i) (coeff n b i) := by
  have h1 : (i : Nat) < a.length := by rw [ha]; exact i.2
  have h2 : (i : Nat) < b.length := by rw [hb]; exact i.2
  have h3 : (i : Nat) < (List.zipWith f a b).length := by
    simp [List.length_zipWith, ha, hb]
  simp [coeff, List.getD_eq_getElem, h1, h2, h3]

/-- C5: for the Euclidean state of dimension `nx` and all `x`, `y`, `dx` of size `nx`,
`integrate(x, diff(x, y))` returns `y` and `diff(x, integrate(x, dx))` returns `dx`,
exactly, over any commutative ring of scalars. -/
theorem integrate_diff_round_trip (s : StateVector) (x y dx : List K)
    (hx : x.length = s.nx_) (hy : y.length = s.nx_) (hdx : dx.length = s.nx_) :
    ((s.diff x y).bind fun d => s.integrate x d) = .ok y ∧
    ((s.integrate x dx).bind fun x1 => s.diff x x1) = .ok dx := by
  constructor
  · simp [diff, integrate, Except.bind, hx, hy, List.length_zipWith,
      zipWith_add_sub x y (hx.trans hy.symm)]
  · simp [diff, integrate, Except.bind, hx, hdx, List.length_zipWith,
      zipWith_sub_add x dx (hx.trans hdx.symm)]

/-- Witness of C5 over the integers, at `nx = 2`. -/
theorem integrate_diff_round_trip_witness :
    (((⟨2⟩ : StateVector).diff [1, 2] [5, -3]).bind fun d =>
        (⟨2⟩ : StateVector).integrate [(1 : ℤ), 2] d) = .ok [5, -3] ∧
    (((⟨2⟩ : StateVector).integrate [1, 2] [7, 7]).bind fun x1 =>
        (⟨2⟩ : StateVector).diff [(1 : ℤ), 2] x1) = .ok [7, 7] :=
  integrate_diff_round_trip ⟨2⟩ [1, 2] [5, -3] [7, 7] rfl rfl rfl

/-- C6: for the Euclidean state of dimension `nx` and vectors of size `nx`, `Jdiff` is minus
the identity for the first argument and the identity for the second, `Jintegrate` is the
identity for both; and these are the exact derivatives of `x1 - x0` and `x + dx`: moving
one argument by any `h` moves the result by the Jacobian applied to `h`. -/
theorem euclidean_jacobians (s : StateVector) (x0 x1 h : List K)
    (h0 : x0.length = s.nx_) (h1 : x1.length = s.nx_) (hh : h.length = s.nx_) :
    s.Jdiff x0 x1 .both = .ok { Jfirst := some (-1), Jsecond := some 1 } ∧
    s.Jdiff x0 x1 .first = .ok { Jfirst := some (-1), Jsecond := none } ∧
    s.Jdiff x0 x1 .second = .ok { Jfirst := none, Jsecond := some 1 } ∧
    s.Jintegrate x0 x1 .both = .ok { Jfirst := some 1, Jsecond := some 1 } ∧
    s.Jintegrate x0 x1 .first = .ok { Jfirst := some 1, Jsecond := none } ∧
    s.Jintegrate x0 x1 .second = .ok { Jfirst := none, Jsecond := some 1 } ∧
    (∃ d dh, s.diff x0 x1 = .ok d ∧
      s.diff (List.zipWith (fun a b => a + b) x0 h) x1 = .ok dh ∧
      coeff s.nx_ dh = coeff s.nx_ d +
        Matrix.mulVec (-1 : Matrix (Fin s.nx_) (Fin s.nx_) K) (coeff s.nx_ h)) ∧
    (∃ d dh, s.diff x0 x1 = .ok d ∧
      s.diff x0 (List.zipWith (fun a b => a + b) x1 h) = .ok dh ∧
      coeff s.nx_ dh = coeff s.nx_ d +
        Matrix.mulVec (1 : Matrix (Fin s.nx_) (Fin s.nx_) K) (coeff s.nx_ h)) ∧
    (∃ d dh, s.integrate x0 x1 = .ok d ∧
      s.integrate (List.zipWith (fun a b => a + b) x0 h) x1 = .ok dh ∧
      coeff s.nx_ dh = coeff s.nx_ d +
        Matrix.mulVec (1 : Matrix (Fin s.nx_) (Fin s.nx_) K) (coeff s.nx_ h)) ∧
    (∃ d dh, s.integrate x0 x1 = .ok d ∧
      s.integrate x0 (List.zipWith (fun a b => a + b) x1 h) = .ok dh ∧
      coeff s.nx_ dh = coeff s.nx_ d +
        Matrix.mulVec (1 : Matrix (Fin s.nx_) (Fin s.nx_) K) (coeff s.nx_ h)) := by
  have l0 : (List.zipWith (fun a b => a + b) x0 h).length = s.nx_ := by
    simp [List.length_zipWith, h0, hh]
  have l1 : (List.zipWith (fun a b => a + b) x1 h).length = s.nx_ := by
    simp [List.length_zipWith, h1, hh]
  refine ⟨by simp [Jdiff, h0, h1], by simp [Jdiff, h0, h1], by simp [Jdiff, h0, h1],
    by simp [Jintegrate, h0, h1], by simp [Jintegrate, h0, h1], by simp [Jintegrate, h0, h1],
    ⟨_, _, by simp [diff, h0, h1]; rfl, by simp [diff, l0, h1]; rfl, ?_⟩,
    ⟨_, _, by simp [diff, h0, h1]; rfl, by simp [diff, h0, l1]; rfl, ?_⟩,
    ⟨_, _, by simp [integrate, h0, h1]; rfl, by simp [integrate, l0, h1]; rfl, ?_⟩,
    ⟨_, _, by simp [integrate, h0, h1]; rfl, by simp [integrate, h0, l1]; rfl, ?_⟩⟩
  · funext i
    simp only [Pi.add_apply, Matrix.neg_mulVec, Matrix.one_mulVec, Pi.neg_apply]
    rw [coeff_zipWith _ _ _ _ h1 l0, coeff_zipWith _ _ _ _ h1 h0, coeff_zipWith _ _ _ _ h0 hh]
    ring
  · funext i
    simp only [Pi.add_apply, Matrix.one_mulVec]
    rw [coeff_zipWith _ _ _ _ l1 h0, coeff_zipWith _ _ _ _ h1 h0, coeff_zipWith _ _ _ _ h1 hh]
    ring
  · funext i
    simp only [Pi.add_apply, Matrix.one_mulVec]
    rw [coeff_zipWith _ _ _ _ l0 h1, coeff_zipWith _ _ _ _ h0 h1, coeff_zipWith _ _ _ _ h0 hh]
    ring
  · funext i
    simp only [Pi.add_apply, Matrix.one_mulVec]
    rw [coeff_zipWith _ _ _ _ h0 l1, coeff_zipWith _ _ _ _ h0 h1, coeff_zipWith _ _ _ _ h1 hh]
    ring

/-- Witness of C6 over the integers, at `nx = 2`. -/
theorem euclidean_jacobians_witness :
    (⟨2⟩ : StateVector).Jdiff [(1 : ℤ), 2] [5, -3] .both
      = .ok { Jfirst := some (-1), Jsecond := some 1 } :=
  (euclidean_jacobians ⟨2⟩ [(1 : ℤ), 2] [5, -3] [1, 1] rfl rfl rfl).1

end StateVector

end crocoddyl

namespace crocoddyl

/-! ## The wrench cone -/

theorem writeAt_some {α : Type} (l : List α) (i : Nat) (a : α) (h : i < l.length) :
    writeAt l i a = some (l.set i a) := by
  simp [writeAt, h]

theorem writeAt_length {α : Type} (l : List α) (i : Nat) (a : α) (h : i < l.length) :
    ∃ r, writeAt l i a = some r ∧ r.length = l.length :=
  ⟨_, writeAt_some l i a h, by simp⟩

theorem writeHead_length {K : Type} (A : List (Row6 K)) (i : Nat) (v : Vector3s K) (h : i < A.length) :
    ∃ r, writeHead A i v = some r ∧ r.length = A.length := by
  simp [writeHead, List.getElem?_eq_getElem h]

section WrenchConeProperties

variable {K : Type} [LinearOrderedField K]

theorem frictionFacet_length (ops : ScalarOps K) (R_ : Matrix3s K) (mu theta : K)
    (A : List (Row6 K)) (i : Nat) (h : 2 * i + 1 < A.length) :
    ∃ r, frictionFacet ops R_ mu theta A i = some r ∧ r.length = A.length := by
  unfold frictionFacet
  obtain ⟨r1, e1, l1⟩ := writeHead_length A (2 * i)
    ((Vector3s.add (Vector3s.scale (-mu) Vector3s.UnitZ)
      ⟨ops.cos (theta * (i : K)), ops.sin (theta * (i : K)), 0⟩).transposeMul R_) (by omega)
  obtain ⟨r2, e2, l2⟩ := writeHead_length r1 (2 * i + 1)
    ((Vector3s.sub (Vector3s.scale (-mu) Vector3s.UnitZ)
      ⟨ops.cos (theta * (i : K)), ops.sin (theta * (i : K)), 0⟩).transposeMul R_) (by omega)
  exact ⟨r2, by simp [e1, e2], by omega⟩

theorem frictionLoop_length (ops : ScalarOps K) (R_ : Matrix3s K) (mu theta : K) (n : Nat)
    (A : List (Row6 K)) (h : 2 * n ≤ A.length) :
    ∃ r, (List.range n).foldlM (frictionFacet ops R_ mu theta) A = some r ∧
      r.length = A.length := by
  induction n with
  | zero => exact ⟨A, by simp, rfl⟩
  | succ n ih =>
    obtain ⟨r1, e1, l1⟩ := ih (by omega)
    obtain ⟨r2, e2, l2⟩ := frictionFacet_length ops R_ mu theta r1 n (by omega)
    exact ⟨r2, by simp [List.range_succ, List.foldlM_append, e1, e2], by omega⟩

theorem frictionCone_length (ops : ScalarOps K) (nf_ : Nat) (R_ : Matrix3s K) (mu theta : K)
    (A : List (Row6 K)) (h : nf_ < A.length) :
    ∃ r, frictionCone ops nf_ R_ mu theta A = some r ∧ r.length = A.length := by
  unfold frictionCone
  obtain ⟨r1, e1, l1⟩ := frictionLoop_length ops R_ mu theta (nf_ / 2) A (by omega)
  obtain ⟨r2, e2, l2⟩ := writeHead_length r1 nf_ (R_.row 2) (by omega)
  exact ⟨r2, by simp [e1, e2], by omega⟩

theorem copRows_length (nf_ : Nat) (R_ : Matrix3s K) (L W : K) (A : List (Row6 K))
    (h : nf_ + 4 < A.length) :
    ∃ r, copRows nf_ R_ L W A = some r ∧ r.length = A.length := by
  unfold copRows
  simp [writeAt, show nf_ + 1 < A.length by omega, show nf_ + 2 < A.length by omega,
    show nf_ + 3 < A.length by omega, h]

theorem yawMinRows_length (nf_ : Nat) (R_ : Matrix3s K) (mu L W mu_LW : K)
    (A : List (Row6 K)) (h : nf_ + 8 < A.length) :
    ∃ r, yawMinRows nf_ R_ mu L W mu_LW A = some r ∧ r.length = A.length := by
  unfold yawMinRows
  simp [writeAt, show nf_ + 5 < A.length by omega, show nf_ + 6 < A.length by omega,
    show nf_ + 7 < A.length by omega, h]

theorem yawMaxRows_length (nf_ : Nat) (R_ : Matrix3s K) (mu L W mu_LW : K)
    (A : List (Row6 K)) (h : nf_ + 12 < A.length) :
    ∃ r, yawMaxRows nf_ R_ mu L W mu_LW A = some r ∧ r.length = A.length := by
  unfold yawMaxRows
  simp [writeAt, show nf_ + 9 < A.length by omega, show nf_ + 10 < A.length by omega,
    show nf_ + 11 < A.length by omega, h]

namespace WrenchConeTpl

/-- On an object whose storage is allocated, `update` goes through; it keeps `nf_`,
`inner_appr_` and the number of rows, stores its arguments and leaves the bounds as the
initial ones with the entry `nf_` overwritten. -/
theorem update_allocated (ops : ScalarOps K) (c : WrenchConeTpl K) (R : Matrix3s K) (mu : K)
    (box_size : Vector2s K) (min_nforce max_nforce : K) (h : c.allocated) :
    ∃ r, update ops c R mu box_size min_nforce max_nforce = some r ∧
      r.nf_ = c.nf_ ∧ r.inner_appr_ = c.inner_appr_ ∧ r.A_.length = c.A_.length ∧
      r.R_ = R ∧ r.box_ = box_size ∧ r.mu_ = mu ∧
      r.min_nforce_ = (if min_nforce < 0 then 0 else min_nforce) ∧
      r.max_nforce_ = (if max_nforce < 0 then ops.max else max_nforce) ∧
      r.lb_ = ((c.lb_.map (fun _ => (1 : K))).map (fun v => v * -ops.max)).set c.nf_
        (if min_nforce < 0 then 0 else min_nforce) ∧
      r.ub_ = (c.ub_.map (fun _ => (0 : K))).set c.nf_
        (if max_nforce < 0 then ops.max else max_nforce) := by
  obtain ⟨hA, hub, hlb⟩ := h
  obtain ⟨a1, e1, l1⟩ := frictionCone_length ops c.nf_ R
    (if c.inner_appr_ then mu * ops.cos (2 * ops.M_PI / (c.nf_ : K) / 2) else mu)
    (2 * ops.M_PI / (c.nf_ : K)) (c.A_.map (fun _ => Row6.Zero)) (by simp; omega)
  obtain ⟨a2, e2, l2⟩ := copRows_length c.nf_ R (box_size.x / 2) (box_size.y / 2) a1
    (by simp at l1; omega)
  obtain ⟨a3, e3, l3⟩ := yawMinRows_length c.nf_ R
    (if c.inner_appr_ then mu * ops.cos (2 * ops.M_PI / (c.nf_ : K) / 2) else mu)
    (box_size.x / 2) (box_size.y / 2)
    (-(if c.inner_appr_ then mu * ops.cos (2 * ops.M_PI / (c.nf_ : K) / 2) else mu) *
      (box_size.x / 2 + box_size.y / 2)) a2 (by simp at l1; omega)
  obtain ⟨a4, e4, l4⟩ := yawMaxRows_length c.nf_ R
    (if c.inner_appr_ then mu * ops.cos (2 * ops.M_PI / (c.nf_ : K) / 2) else mu)
    (box_size.x / 2) (box_size.y / 2)
    (-(if c.inner_appr_ then mu * ops.cos (2 * ops.M_PI / (c.nf_ : K) / 2) else mu) *
      (box_size.x / 2 + box_size.y / 2)) a3 (by simp at l1; omega)
  have e : update ops c R mu box_size min_nforce max_nforce = some
      { nf_ := c.nf_, A_ := a4,
        ub_ := (c.ub_.map (fun _ => (0 : K))).set c.nf_
          (if max_nforce < 0 then ops.max else max_nforce),
        lb_ := ((c.lb_.map (fun _ => (1 : K))).map (fun v => v * -ops.max)).set c.nf_
          (if min_nforce < 0 then 0 else min_nforce),
        R_ := R, box_ := box_size, mu_ := mu, inner_appr_ := c.inner_appr_,
        min_nforce_ := if min_nforce < 0 then 0 else min_nforce,
        max_nforce_ := if max_nforce < 0 then ops.max else max_nforce } := by
    unfold update
    simp only [e1, e2, e3, e4, Option.bind, writeAt, List.length_map, hub, hlb, if_true]
  refine ⟨_, e, rfl, rfl, ?_, rfl, rfl, rfl, rfl, rfl, rfl, rfl⟩
  simp only [List.length_map] at l1
  show a4.length = c.A_.length
  omega

/-- Both constructors allocate what `update` writes, when they return an object, and
`update` keeps it so. -/
theorem update_keeps_allocated (ops : ScalarOps K) (c : WrenchConeTpl K) (R : Matrix3s K)
    (mu : K) (box_size : Vector2s K) (min_nforce max_nforce : K) (h : c.allocated) :
    ∃ r, update ops c R mu box_size min_nforce max_nforce = some r ∧ r.allocated := by
  obtain ⟨r, e, hnf, _, hA, _, _, _, _, _, hlb, hub⟩ :=
    update_allocated ops c R mu box_size min_nforce max_nforce h
  refine ⟨r, e, ?_, ?_, ?_⟩
  · rw [hnf, hA]; exact h.1
  · rw [hnf, hub]; simpa using h.2.1
  · rw [hnf, hlb]; simpa using h.2.2

/-- The constructor returns an object for every even `nf` and every odd `nf` from 5 on, and
then `get_nf()` is `nf` if `nf` is even and 4 if it is odd, while `A_` has `nf + 13` rows. -/
theorem new_get_nf (ops : ScalarOps K) (inner_appr : Bool) (R : Matrix3s K) (mu : K)
    (box_size : Vector2s K) (nf : Nat) (min_nforce max_nforce : K)
    (h : nf % 2 = 0 ∨ 5 ≤ nf) :
    ∃ r, new ops inner_appr R mu box_size nf min_nforce max_nforce = some r ∧
      r.get_nf = (if nf % 2 = 0 then nf else 4) ∧ r.get_A.length = nf + 13 ∧
      r.allocated := by
  have hal : allocated
      ({ nf_ := if nf % 2 ≠ 0 then 4 else nf, A_ := List.replicate (nf + 13) Row6.Zero,
         ub_ := List.replicate (nf + 13) 0, lb_ := List.replicate (nf + 13) 0, R_ := R,
         box_ := box_size, mu_ := mu, inner_appr_ := inner_appr, min_nforce_ := min_nforce,
         max_nforce_ := max_nforce } : WrenchConeTpl K) := by
    simp only [allocated, List.length_replicate]
    split <;> omega
  obtain ⟨r, e, hnf, _, hA, _, _, _, _, _, hlb, hub⟩ :=
    update_allocated ops _ R mu box_size min_nforce max_nforce hal
  refine ⟨r, e, ?_, ?_, ?_⟩
  · rw [get_nf, hnf]
    by_cases hp : nf % 2 = 0 <;> simp [hp]
  · rw [get_A, hA]; simp
  · obtain ⟨r2, e2, h2⟩ := update_keeps_allocated ops _ R mu box_size min_nforce max_nforce hal
    rw [e] at e2
    cases e2
    exact h2

/-- The cone built with the identity rotation, `nf = 4` and no inner approximation, for any
scalar operations: its rows, with the values `cos` and `sin` take at the two facet angles
`theta * 0 = 0` and `theta * 1 = 2 * M_PI / 4`, and its upper bounds. -/
theorem new_identity_nf4_ops (ops : ScalarOps K) (mu mn mx : K) (box : Vector2s K) :
    ∃ r, new ops false Matrix3s.Identity mu box 4 mn mx = some r ∧
      r.A_ =
        [⟨⟨ops.cos 0, ops.sin 0, -mu⟩, ⟨0, 0, 0⟩⟩, ⟨⟨-ops.cos 0, -ops.sin 0, -mu⟩, ⟨0, 0, 0⟩⟩,
         ⟨⟨ops.cos (2 * ops.M_PI / 4), ops.sin (2 * ops.M_PI / 4), -mu⟩, ⟨0, 0, 0⟩⟩,
         ⟨⟨-ops.cos (2 * ops.M_PI / 4), -ops.sin (2 * ops.M_PI / 4), -mu⟩, ⟨0, 0, 0⟩⟩,
         ⟨⟨0, 0, 1⟩, ⟨0, 0, 0⟩⟩,
         ⟨⟨0, 0, -(box.y / 2)⟩, ⟨1, 0, 0⟩⟩, ⟨⟨0, 0, -(box.y / 2)⟩, ⟨-1, 0, 0⟩⟩,
         ⟨⟨0, 0, -(box.x / 2)⟩, ⟨0, 1, 0⟩⟩, ⟨⟨0, 0, -(box.x / 2)⟩, ⟨0, -1, 0⟩⟩,
         ⟨⟨box.y / 2, box.x / 2, -mu * (box.x / 2 + box.y / 2)⟩, ⟨-mu, -mu, -1⟩⟩,
         ⟨⟨box.y / 2, -(box.x / 2), -mu * (box.x / 2 + box.y / 2)⟩, ⟨-mu, mu, -1⟩⟩,
         ⟨⟨-(box.y / 2), box.x / 2, -mu * (box.x / 2 + box.y / 2)⟩, ⟨mu, -mu, -1⟩⟩,
         ⟨⟨-(box.y / 2), -(box.x / 2), -mu * (box.x / 2 + box.y / 2)⟩, ⟨mu, mu, -1⟩⟩,
         ⟨⟨box.y / 2, box.x / 2, -mu * (box.x / 2 + box.y / 2)⟩, ⟨mu, mu, 1⟩⟩,
         ⟨⟨box.y / 2, -(box.x / 2), -mu * (box.x / 2 + box.y / 2)⟩, ⟨mu, -mu, 1⟩⟩,
         ⟨⟨-(box.y / 2), box.x / 2, -mu * (box.x / 2 + box.y / 2)⟩, ⟨-mu, mu, 1⟩⟩,
         ⟨⟨-(box.y / 2), -(box.x / 2), -mu * (box.x / 2 + box.y / 2)⟩, ⟨-mu, -mu, 1⟩⟩] ∧
      r.ub_ = [0, 0, 0, 0, if mx < 0 then ops.max else mx, 0, 0, 0, 0, 0, 0, 0, 0, 0, 0, 0, 0] := by
  have hr : List.range 2 = [0, 1] := rfl
  simp [new, update, frictionCone, frictionFacet, copRows, yawMinRows, yawMaxRows, writeAt,
    writeHead, Row6.Zero, Matrix3s.Identity, Matrix3s.row, Matrix3s.col,
    Vector3s.transposeMul, Vector3s.scale, Vector3s.add, Vector3s.sub, Vector3s.neg,
    Vector3s.UnitZ, List.replicate, hr]

/-- C7, as stated, fails for `Scalar = double`: `cos(2 * M_PI / 4)` is not 0 but about
`6.1e-17`, so with the identity rotation, `nf = 4`, `mu = 1/2` and the box `(1/2, 1/4)` the
row 2 of `A` is `[6.1e-17, 1, -1/2, 0, 0, 0]` and not `[0, 1, -1/2, 0, 0, 0]`. -/
theorem update_matrix_double_row2 :
    (new doubleOps false Matrix3s.Identity (1 / 2) ⟨1 / 2, 1 / 4⟩ 4 0 100).map
        (fun c => (c.get_A.map Row6.toList)[2]?)
      = some (some ([4967757600021511 / 2 ^ 106, 1, -(1 / 2), 0, 0, 0] : List ℚ)) ∧
    (new doubleOps false Matrix3s.Identity (1 / 2) ⟨1 / 2, 1 / 4⟩ 4 0 100).map
        (fun c => (c.get_A.map Row6.toList)[2]?)
      ≠ some (some ([0, 1, -(1 / 2), 0, 0, 0] : List ℚ)) := by
  obtain ⟨r, e, hA, _⟩ := new_identity_nf4_ops doubleOps (1 / 2) 0 100 ⟨1 / 2, 1 / 4⟩
  have hne : ¬ (2 * M_PI_double / 4 = 0) := by norm_num [M_PI_double]
  have hrow : (new doubleOps false Matrix3s.Identity (1 / 2) ⟨1 / 2, 1 / 4⟩ 4 0 100).map
        (fun c => (c.get_A.map Row6.toList)[2]?)
      = some (some ([4967757600021511 / 2 ^ 106, 1, -(1 / 2), 0, 0, 0] : List ℚ)) := by
    rw [e]
    simp [get_A, hA, Row6.toList, doubleOps, cosDouble, sinDouble, hne]
  refine ⟨hrow, ?_⟩
  rw [hrow]
  norm_num

/-- C7, amended: with `R` the identity, `nf = 4`, no inner approximation, any `mu` and the
box `(2L, 2W)`, and with `cos(0) = 1` and `sin(0) = 0`, the constructor (through `update`)
leaves in `A` the 17 rows written in the comments of `update`, except that the rows 2 and 3
are `[c, s, -mu, 0, 0, 0]` and `[-c, -s, -mu, 0, 0, 0]` for the computed values
`c = cos(2 * M_PI / 4)` and `s = sin(2 * M_PI / 4)`; all 17 rows are the commented ones
when `c = 0` and `s = 1`. -/
theorem update_matrix_identity_nf4 (ops : ScalarOps K) (mu L W mn mx : K)
    (hcos : ops.cos 0 = 1) (hsin : ops.sin 0 = 0) :
    (new ops false Matrix3s.Identity mu ⟨2 * L, 2 * W⟩ 4 mn mx).map
        (fun c => c.get_A.map Row6.toList) =
      some [[1, 0, -mu, 0, 0, 0], [-1, 0, -mu, 0, 0, 0],
        [ops.cos (2 * ops.M_PI / 4), ops.sin (2 * ops.M_PI / 4), -mu, 0, 0, 0],
        [-ops.cos (2 * ops.M_PI / 4), -ops.sin (2 * ops.M_PI / 4), -mu, 0, 0, 0],
        [0, 0, 1, 0, 0, 0],
        [0, 0, -W, 1, 0, 0], [0, 0, -W, -1, 0, 0], [0, 0, -L, 0, 1, 0], [0, 0, -L, 0, -1, 0],
        [W, L, -mu * (L + W), -mu, -mu, -1], [W, -L, -mu * (L + W), -mu, mu, -1],
        [-W, L, -mu * (L + W), mu, -mu, -1], [-W, -L, -mu * (L + W), mu, mu, -1],
        [W, L, -mu * (L + W), mu, mu, 1], [W, -L, -mu * (L + W), mu, -mu, 1],
        [-W, L, -mu * (L + W), -mu, mu, 1], [-W, -L, -mu * (L + W), -mu, -mu, 1]] ∧
    (ops.cos (2 * ops.M_PI / 4) = 0 → ops.sin (2 * ops.M_PI / 4) = 1 →
      (new ops false Matrix3s.Identity mu ⟨2 * L, 2 * W⟩ 4 mn mx).map
          (fun c => c.get_A.map Row6.toList) =
        some [[1, 0, -mu, 0, 0, 0], [-1, 0, -mu, 0, 0, 0], [0, 1, -mu, 0, 0, 0],
          [0, -1, -mu, 0, 0, 0],
          [0, 0, 1, 0, 0, 0],
          [0, 0, -W, 1, 0, 0], [0, 0, -W, -1, 0, 0], [0, 0, -L, 0, 1, 0], [0, 0, -L, 0, -1, 0],
          [W, L, -mu * (L + W), -mu, -mu, -1], [W, -L, -mu * (L + W), -mu, mu, -1],
          [-W, L, -mu * (L + W), mu, -mu, -1], [-W, -L, -mu * (L + W), mu, mu, -1],
          [W, L, -mu * (L + W), mu, mu, 1], [W, -L, -mu * (L + W), mu, -mu, 1],
          [-W, L, -mu * (L + W), -mu, mu, 1], [-W, -L, -mu * (L + W), -mu, -mu, 1]]) := by
  obtain ⟨r, e, hA, _⟩ := new_identity_nf4_ops ops mu mn mx ⟨2 * L, 2 * W⟩
  have h2 : (2 : K) ≠ 0 := two_ne_zero
  have key : (new ops false Matrix3s.Identity mu ⟨2 * L, 2 * W⟩ 4 mn mx).map
        (fun c => c.get_A.map Row6.toList) =
      some [[1, 0, -mu, 0, 0, 0], [-1, 0, -mu, 0, 0, 0],
        [ops.cos (2 * ops.M_PI / 4), ops.sin (2 * ops.M_PI / 4), -mu, 0, 0, 0],
        [-ops.cos (2 * ops.M_PI / 4), -ops.sin (2 * ops.M_PI / 4), -mu, 0, 0, 0],
        [0, 0, 1, 0, 0, 0],
        [0, 0, -W, 1, 0, 0], [0, 0, -W, -1, 0, 0], [0, 0, -L, 0, 1, 0], [0, 0, -L, 0, -1, 0],
        [W, L, -mu * (L + W), -mu, -mu, -1], [W, -L, -mu * (L + W), -mu, mu, -1],
        [-W, L, -mu * (L + W), mu, -mu, -1], [-W, -L, -mu * (L + W), mu, mu, -1],
        [W, L, -mu * (L + W), mu, mu, 1], [W, -L, -mu * (L + W), mu, -mu, 1],
        [-W, L, -mu * (L + W), -mu, mu, 1], [-W, -L, -mu * (L + W), -mu, -mu, 1]] := by
    rw [e]
    simp [get_A, hA, Row6.toList, hcos, hsin, mul_div_cancel_left₀ _ h2]
  refine ⟨key, fun hc hs => ?_⟩
  rw [key, hc, hs]
  simp

/-- Witness of the amended C7 for `Scalar = double`, with `mu = 1/2`, `L = 1/4`, `W = 1/8`:
rows 2 and 3 carry `cos(2 * M_PI / 4)`, about `6.1e-17`, in place of 0. -/
theorem update_matrix_identity_nf4_witness :
    (new doubleOps false Matrix3s.Identity (1 / 2) ⟨2 * (1 / 4), 2 * (1 / 8)⟩ 4 0 100).map
        (fun c => c.get_A.map Row6.toList) =
      some [[1, 0, -(1 / 2), 0, 0, 0], [-1, 0, -(1 / 2), 0, 0, 0],
        [doubleOps.cos (2 * doubleOps.M_PI / 4), doubleOps.sin (2 * doubleOps.M_PI / 4),
          -(1 / 2), 0, 0, 0],
        [-doubleOps.cos (2 * doubleOps.M_PI / 4), -doubleOps.sin (2 * doubleOps.M_PI / 4),
          -(1 / 2), 0, 0, 0],
        [0, 0, 1, 0, 0, 0],
        [0, 0, -(1 / 8), 1, 0, 0], [0, 0, -(1 / 8), -1, 0, 0], [0, 0, -(1 / 4), 0, 1, 0],
        [0, 0, -(1 / 4), 0, -1, 0],
        [1 / 8, 1 / 4, -(1 / 2) * (1 / 4 + 1 / 8), -(1 / 2), -(1 / 2), -1],
        [1 / 8, -(1 / 4), -(1 / 2) * (1 / 4 + 1 / 8), -(1 / 2), 1 / 2, -1],
        [-(1 / 8), 1 / 4, -(1 / 2) * (1 / 4 + 1 / 8), 1 / 2, -(1 / 2), -1],
        [-(1 / 8), -(1 / 4), -(1 / 2) * (1 / 4 + 1 / 8), 1 / 2, 1 / 2, -1],
        [1 / 8, 1 / 4, -(1 / 2) * (1 / 4 + 1 / 8), 1 / 2, 1 / 2, 1],
        [1 / 8, -(1 / 4), -(1 / 2) * (1 / 4 + 1 / 8), 1 / 2, -(1 / 2), 1],
        [-(1 / 8), 1 / 4, -(1 / 2) * (1 / 4 + 1 / 8), -(1 / 2), 1 / 2, 1],
        [-(1 / 8), -(1 / 4), -(1 / 2) * (1 / 4 + 1 / 8), -(1 / 2), -(1 / 2), 1]] :=
  (update_matrix_identity_nf4 doubleOps (1 / 2) (1 / 4) (1 / 8) 0 100
    (by simp [doubleOps, cosDouble]) (by simp [doubleOps, sinDouble])).1

/-- C8: on an object whose storage is allocated (as every constructed one is), every call
`update(R, mu, box, min_nforce, max_nforce)` goes through and afterwards
`get_min_nforce()` is 0 if `min_nforce < 0` and `min_nforce` otherwise, `get_max_nforce()`
is the largest finite scalar if `max_nforce < 0` and `max_nforce` otherwise,
`lb[nf] = get_min_nforce()`, `ub[nf] = get_max_nforce()`, every other entry of `ub` is 0
and every other entry of `lb` is minus the largest finite scalar. -/
theorem update_bounds (ops : ScalarOps K) (c : WrenchConeTpl K) (R : Matrix3s K) (mu : K)
    (box_size : Vector2s K) (min_nforce max_nforce : K) (h : c.allocated) :
    ∃ r, update ops c R mu box_size min_nforce max_nforce = some r ∧
      r.get_min_nforce = (if min_nforce < 0 then 0 else min_nforce) ∧
      r.get_max_nforce = (if max_nforce < 0 then ops.max else max_nforce) ∧
      r.get_lb[r.get_nf]? = some r.get_min_nforce ∧
      r.get_ub[r.get_nf]? = some r.get_max_nforce ∧
      r.get_ub.length = c.get_ub.length ∧ r.get_lb.length = c.get_lb.length ∧
      (∀ i, i < r.get_ub.length → i ≠ r.get_nf → r.get_ub[i]? = some 0) ∧
      (∀ i, i < r.get_lb.length → i ≠ r.get_nf → r.get_lb[i]? = some (-ops.max)) := by
  obtain ⟨r, e, hnf, _, _, _, _, _, hmin, hmax, hlb, hub⟩ :=
    update_allocated ops c R mu box_size min_nforce max_nforce h
  obtain ⟨_, h2, h3⟩ := h
  refine ⟨r, e, hmin, hmax, ?_, ?_, ?_, ?_, ?_, ?_⟩
  · simp only [get_lb, get_nf, get_min_nforce, hlb, hnf, hmin]
    rw [List.getElem?_set_self (by simpa using h3)]
  · simp only [get_ub, get_nf, get_max_nforce, hub, hnf, hmax]
    rw [List.getElem?_set_self (by simpa using h2)]
  · simp [get_ub, hub]
  · simp [get_lb, hlb]
  · intro i hi hne
    simp only [get_ub, get_nf, hub, hnf] at hi hne ⊢
    rw [List.getElem?_set_ne (Ne.symm hne)]
    simp only [List.length_set, List.length_map] at hi
    simp [List.getElem?_eq_getElem hi, List.getElem?_replicate_of_lt hi]
  · intro i hi hne
    simp only [get_lb, get_nf, hlb, hnf] at hi hne ⊢
    rw [List.getElem?_set_ne (Ne.symm hne)]
    simp only [List.length_set, List.length_map] at hi
    simp [List.getElem?_eq_getElem hi, List.getElem?_replicate_of_lt hi]

/-- Witness of C8 on the cone built with `nf = 2` over the rationals, updated with a negative
`min_nforce` and a negative `max_nforce`. -/
theorem update_bounds_witness :
    ∃ r, update (⟨fun _ => 1, fun _ => 0, 3, 1000⟩ : ScalarOps ℚ)
        { nf_ := 2, A_ := List.replicate 15 Row6.Zero, ub_ := List.replicate 15 0,
          lb_ := List.replicate 15 0, R_ := Matrix3s.Identity, box_ := ⟨2, 4⟩, mu_ := 1 / 2,
          inner_appr_ := false, min_nforce_ := 0, max_nforce_ := 5 }
        Matrix3s.Identity (1 / 2) ⟨2, 4⟩ (-1) (-1) = some r ∧
      r.get_min_nforce = 0 ∧ r.get_max_nforce = 1000 := by
  obtain ⟨r, e, h1, h2, _⟩ := update_bounds (⟨fun _ => 1, fun _ => 0, 3, 1000⟩ : ScalarOps ℚ)
    { nf_ := 2, A_ := List.replicate 15 Row6.Zero, ub_ := List.replicate 15 0,
      lb_ := List.replicate 15 0, R_ := Matrix3s.Identity, box_ := ⟨2, 4⟩, mu_ := 1 / 2,
      inner_appr_ := false, min_nforce_ := 0, max_nforce_ := 5 }
    Matrix3s.Identity (1 / 2) ⟨2, 4⟩ (-1) (-1) (by decide)
  exact ⟨r, e, by simpa using h1, by simpa using h2⟩

/-- C9 at `nf = 1` and at `nf = 3`: the storage has `nf + 13` rows, 14 and 16, while `nf_`
has become 4 and `update` writes the rows up to 16: the write is out of bounds and the
constructor returns no object. -/
theorem new_odd_small_nf (ops : ScalarOps K) (inner_appr : Bool) (R : Matrix3s K) (mu : K)
    (box_size : Vector2s K) (min_nforce max_nforce : K) :
    new ops inner_appr R mu box_size 1 min_nforce max_nforce = none ∧
    new ops inner_appr R mu box_size 3 min_nforce max_nforce = none := by
  have hr : List.range 2 = [0, 1] := rfl
  constructor <;>
  simp [new, update, frictionCone, frictionFacet, copRows, yawMinRows, yawMaxRows, writeAt,
    writeHead, List.replicate, hr]

end WrenchConeTpl

end WrenchConeProperties

end crocoddyl

namespace crocoddyl

theorem writeAt_inv {α : Type} {l r : List α} {i : Nat} {a : α} (h : writeAt l i a = some r) :
    i < l.length ∧ r.length = l.length := by
  unfold writeAt at h
  split at h
  · cases h; exact ⟨by assumption, by simp⟩
  · cases h

theorem writeHead_inv {K : Type} {A r : List (Row6 K)} {i : Nat} {v : Vector3s K}
    (h : writeHead A i v = some r) : i < A.length ∧ r.length = A.length := by
  unfold writeHead at h
  split at h
  · rename_i row hrow
    cases h
    exact ⟨(List.getElem?_eq_some_iff.1 hrow).1, by simp⟩
  · cases h

section WrenchConeInversion

variable {K : Type} [LinearOrderedField K]

theorem frictionFacet_inv {ops : ScalarOps K} {R_ : Matrix3s K} {mu theta : K}
    {A r : List (Row6 K)} {i : Nat} (h : frictionFacet ops R_ mu theta A i = some r) :
    r.length = A.length := by
  unfold frictionFacet at h
  simp only [bind, Option.bind_eq_some] at h
  obtain ⟨a1, e1, e2⟩ := h
  rw [(writeHead_inv e2).2, (writeHead_inv e1).2]

theorem frictionLoop_inv {ops : ScalarOps K} {R_ : Matrix3s K} {mu theta : K} (is : List Nat)
    {A r : List (Row6 K)} (h : is.foldlM (frictionFacet ops R_ mu theta) A = some r) :
    r.length = A.length := by
  induction is generalizing A with
  | nil => simp at h; rw [h]
  | cons i is ih =>
    simp only [List.foldlM_cons, bind, Option.bind_eq_some] at h
    obtain ⟨a1, e1, e2⟩ := h
    rw [ih e2, frictionFacet_inv e1]

theorem frictionCone_inv {ops : ScalarOps K} {nf_ : Nat} {R_ : Matrix3s K} {mu theta : K}
    {A r : List (Row6 K)} (h : frictionCone ops nf_ R_ mu theta A = some r) :
    nf_ < A.length ∧ r.length = A.length := by
  unfold frictionCone at h
  simp only [bind, Option.bind_eq_some] at h
  obtain ⟨a1, e1, e2⟩ := h
  have l1 := frictionLoop_inv _ e1
  have l2 := writeHead_inv e2
  exact ⟨by omega, by omega⟩

theorem copRows_inv {nf_ : Nat} {R_ : Matrix3s K} {L W : K} {A r : List (Row6 K)}
    (h : copRows nf_ R_ L W A = some r) : r.length = A.length := by
  unfold copRows at h
  simp only [bind, Option.bind_eq_some] at h
  obtain ⟨a1, e1, a2, e2, a3, e3, e4⟩ := h
  rw [(writeAt_inv e4).2, (writeAt_inv e3).2, (writeAt_inv e2).2, (writeAt_inv e1).2]

theorem yawMinRows_inv {nf_ : Nat} {R_ : Matrix3s K} {mu L W mu_LW : K}
    {A r : List (Row6 K)} (h : yawMinRows nf_ R_ mu L W mu_LW A = some r) :
    r.length = A.length := by
  unfold yawMinRows at h
  simp only [bind, Option.bind_eq_some] at h
  obtain ⟨a1, e1, a2, e2, a3, e3, e4⟩ := h
  rw [(writeAt_inv e4).2, (writeAt_inv e3).2, (writeAt_inv e2).2, (writeAt_inv e1).2]

theorem yawMaxRows_inv {nf_ : Nat} {R_ : Matrix3s K} {mu L W mu_LW : K}
    {A r : List (Row6 K)} (h : yawMaxRows nf_ R_ mu L W mu_LW A = some r) :
    nf_ + 12 < A.length ∧ r.length = A.length := by
  unfold yawMaxRows at h
  simp only [bind, Option.bind_eq_some] at h
  obtain ⟨a1, e1, a2, e2, a3, e3, e4⟩ := h
  have l1 := writeAt_inv e1
  have l2 := writeAt_inv e2
  have l3 := writeAt_inv e3
  have l4 := writeAt_inv e4
  exact ⟨by omega, by omega⟩

/-- The method `update` returns an object exactly on the objects whose storage holds every
row and entry it writes. -/
theorem WrenchConeTpl.update_isSome_iff (ops : ScalarOps K) (c : WrenchConeTpl K)
    (R : Matrix3s K) (mu : K) (box_size : Vector2s K) (min_nforce max_nforce : K) :
    (WrenchConeTpl.update ops c R mu box_size min_nforce max_nforce).isSome ↔ c.allocated := by
  constructor
  · intro h
    obtain ⟨r, hr⟩ := Option.isSome_iff_exists.1 h
    unfold WrenchConeTpl.update at hr
    simp only [Option.bind_eq_some] at hr
    obtain ⟨a1, e1, lb, elb, ub, eub, a2, e2, a3, e3, a4, e4, _⟩ := hr
    have l1 := frictionCone_inv e1
    have l2 := copRows_inv e2
    have l3 := yawMinRows_inv e3
    have l4 := yawMaxRows_inv e4
    have l5 := writeAt_inv elb
    have l6 := writeAt_inv eub
    simp only [List.length_map] at l1 l5 l6
    exact ⟨by omega, l6.1, l5.1⟩
  · intro h
    obtain ⟨r, e, _⟩ := WrenchConeTpl.update_allocated ops c R mu box_size min_nforce max_nforce h
    simp [e]

end WrenchConeInversion

end crocoddyl

namespace crocoddyl

/-! ## `cast` -/

/-- C11: for every wrapper, with parameters `(nu, nr, ng, nh, ng_T, nh_T)`, `cast` returns a
wrapper with the same six dimensions and with `unone_` the all-NaN vector of size `nu`;
casting twice gives the same six dimensions as casting once. -/
theorem ActionModelAbstractTpl_wrap.cast_keeps_dimensions (m : ActionModelAbstractTpl_wrap)
    (nxCast nxCast2 : Nat) :
    ((m.cast nxCast).nu_ = m.nu_ ∧ (m.cast nxCast).nr_ = m.nr_ ∧ (m.cast nxCast).ng_ = m.ng_ ∧
      (m.cast nxCast).nh_ = m.nh_ ∧ (m.cast nxCast).ng_T_ = m.ng_T_ ∧
      (m.cast nxCast).nh_T_ = m.nh_T_) ∧
    (m.cast nxCast).unone_ = List.replicate m.nu_ Scalar.nan ∧
    (((m.cast nxCast).cast nxCast2).nu_ = (m.cast nxCast).nu_ ∧
      ((m.cast nxCast).cast nxCast2).nr_ = (m.cast nxCast).nr_ ∧
      ((m.cast nxCast).cast nxCast2).ng_ = (m.cast nxCast).ng_ ∧
      ((m.cast nxCast).cast nxCast2).nh_ = (m.cast nxCast).nh_ ∧
      ((m.cast nxCast).cast nxCast2).ng_T_ = (m.cast nxCast).ng_T_ ∧
      ((m.cast nxCast).cast nxCast2).nh_T_ = (m.cast nxCast).nh_T_) := by
  refine ⟨⟨rfl, rfl, rfl, rfl, rfl, rfl⟩, ?_, ⟨rfl, rfl, rfl, rfl, rfl, rfl⟩⟩
  exact unone_new _ _ _ _ _ _ _

/-! ## `ScaleNumerics` -/

theorem ScalarBaseType_codegen (T : ScalarType) : ScalarBaseType true T = stripWrappers T := by
  induction T with
  | AD T ih => simpa [ScalarBaseType, stripWrappers] using ih
  | CG T ih => simpa [ScalarBaseType, stripWrappers] using ih
  | float => rfl
  | double => rfl
  | other tag => rfl

theorem ScalarBaseType_plain (T : ScalarType) : ScalarBaseType false T = T := by
  cases T <;> simp [ScalarBaseType]

/-- C17, as stated, fails in a build without `CROCODDYL_WITH_CODEGEN`: the specialisations
of `ScalarBaseType` are not compiled, the base type of `CppAD::AD<float>` is itself, and
`ScaleNumerics<CppAD::AD<float>>(1, 1000)` converts 1, not 1000, although stripping the
wrapper gives `float`. -/
theorem ScaleNumerics_without_codegen :
    stripWrappers (.AD .float) = .float ∧
    ScaleNumerics false (.AD .float) 1 1000 = ⟨.AD .float, 1⟩ ∧
    ScaleNumerics false (.AD .float) 1 1000 ≠ ⟨.AD .float, 1 * 1000⟩ := by
  refine ⟨rfl, ?_, ?_⟩
  · simp [ScaleNumerics, ScalarBaseType]
  · simp [ScaleNumerics, ScalarBaseType]

/-- C17, amended: in a build with `CROCODDYL_WITH_CODEGEN`, `ScaleNumerics<Scalar>` converts
`base_value * float_multiplier` (the multiplier being 1000 by default) when the type left
after stripping every nested `CppAD::AD<>` and `CppAD::cg::CG<>` wrapper is `float`, and
`base_value`, whatever the multiplier, otherwise; in a build without it the same holds with
no wrapper stripped, that is the product is converted exactly for `Scalar = float`. -/
theorem ScaleNumerics_spec (Scalar : ScalarType) (base_value float_multiplier : ℚ) :
    (stripWrappers Scalar = .float →
      ScaleNumerics true Scalar base_value float_multiplier
        = ⟨Scalar, base_value * float_multiplier⟩ ∧
      ScaleNumericsDefault true Scalar base_value = ⟨Scalar, base_value * 1000⟩) ∧
    (stripWrappers Scalar ≠ .float →
      ScaleNumerics true Scalar base_value float_multiplier = ⟨Scalar, base_value⟩ ∧
      ScaleNumericsDefault true Scalar base_value = ⟨Scalar, base_value⟩) ∧
    (Scalar = .float →
      ScaleNumerics false Scalar base_value float_multiplier
        = ⟨Scalar, base_value * float_multiplier⟩ ∧
      ScaleNumericsDefault false Scalar base_value = ⟨Scalar, base_value * 1000⟩) ∧
    (Scalar ≠ .float →
      ScaleNumerics false Scalar base_value float_multiplier = ⟨Scalar, base_value⟩ ∧
      ScaleNumericsDefault false Scalar base_value = ⟨Scalar, base_value⟩) := by
  refine ⟨fun h => ?_, fun h => ?_, fun h => ?_, fun h => ?_⟩
  · simp [ScaleNumerics, ScaleNumericsDefault, ScalarBaseType_codegen, h]
  · simp [ScaleNumerics, ScaleNumericsDefault, ScalarBaseType_codegen, h]
  · simp [ScaleNumerics, ScaleNumericsDefault, ScalarBaseType_plain, h]
  · simp [ScaleNumerics, ScaleNumericsDefault, ScalarBaseType_plain, h]

/-- Witness of the amended C17: with code generation, `CppAD::AD<CppAD::cg::CG<float>>`
scales `1/2` by 100 and `CppAD::AD<double>` does not; without it, `float` scales. -/
theorem ScaleNumerics_spec_witness :
    ScaleNumerics true (.AD (.CG .float)) (1 / 2) 100 = ⟨.AD (.CG .float), 1 / 2 * 100⟩ ∧
    ScaleNumerics true (.AD .double) (1 / 2) 100 = ⟨.AD .double, 1 / 2⟩ ∧
    ScaleNumericsDefault false .float (1 / 2) = ⟨.float, 1 / 2 * 1000⟩ ∧
    ScaleNumerics false .double (1 / 2) 100 = ⟨.double, 1 / 2⟩ :=
  ⟨((ScaleNumerics_spec (.AD (.CG .float)) (1 / 2) 100).1 (by decide)).1,
   ((ScaleNumerics_spec (.AD .double) (1 / 2) 100).2.1 (by decide)).1,
   ((ScaleNumerics_spec .float (1 / 2) 100).2.2.1 rfl).2,
   ((ScaleNumerics_spec .double (1 / 2) 100).2.2.2 (by decide)).1⟩

/-! ## Allocation and bounds of the wrench cone -/

section WrenchConeBounds

variable {K : Type} [LinearOrderedField K]

namespace WrenchConeTpl

/-- What the constructor leaves in the bounds, for every even `nf` and every odd `nf` from
5 on. -/
theorem new_bounds (ops : ScalarOps K) (inner_appr : Bool) (R : Matrix3s K) (mu : K)
    (box_size : Vector2s K) (nf : Nat) (min_nforce max_nforce : K)
    (h : nf % 2 = 0 ∨ 5 ≤ nf) :
    ∃ r, new ops inner_appr R mu box_size nf min_nforce max_nforce = some r ∧
      r.nf_ = (if nf % 2 = 0 then nf else 4) ∧
      r.min_nforce_ = (if min_nforce < 0 then 0 else min_nforce) ∧
      r.max_nforce_ = (if max_nforce < 0 then ops.max else max_nforce) ∧
      r.lb_ = (List.replicate (nf + 13) (-ops.max)).set (if nf % 2 = 0 then nf else 4)
        (if min_nforce < 0 then 0 else min_nforce) ∧
      r.ub_ = (List.replicate (nf + 13) 0).set (if nf % 2 = 0 then nf else 4)
        (if max_nforce < 0 then ops.max else max_nforce) := by
  have hal : allocated
      ({ nf_ := if nf % 2 ≠ 0 then 4 else nf, A_ := List.replicate (nf + 13) Row6.Zero,
         ub_ := List.replicate (nf + 13) 0, lb_ := List.replicate (nf + 13) 0, R_ := R,
         box_ := box_size, mu_ := mu, inner_appr_ := inner_appr, min_nforce_ := min_nforce,
         max_nforce_ := max_nforce } : WrenchConeTpl K) := by
    simp only [allocated, List.length_replicate]
    split <;> omega
  obtain ⟨r, e, hnf, _, _, _, _, _, hmin, hmax, hlb, hub⟩ :=
    update_allocated ops _ R mu box_size min_nforce max_nforce hal
  have hn : (if nf % 2 ≠ 0 then 4 else nf) = (if nf % 2 = 0 then nf else 4) := by
    by_cases hp : nf % 2 = 0 <;> simp [hp]
  refine ⟨r, e, by rw [hnf, hn], hmin, hmax, ?_, ?_⟩
  · rw [hlb, hn]; simp
  · rw [hub, hn]; simp

/-- C14 at `nf = 1` and `nf = 5`: for `nf = 1` the 14 allocated rows do not hold the rows
up to 16 that `update` writes with `nf_ = 4`, and the constructor returns no object; for
`nf = 5` it returns one whose `A` has 18 rows while `get_nf() + 13` is 17. -/
theorem new_rows_odd_nf (ops : ScalarOps K) (inner_appr : Bool) (R : Matrix3s K) (mu : K)
    (box_size : Vector2s K) (min_nforce max_nforce : K) :
    new ops inner_appr R mu box_size 1 min_nforce max_nforce = none ∧
    ∃ r, new ops inner_appr R mu box_size 5 min_nforce max_nforce = some r ∧
      r.get_nf = 4 ∧ r.get_A.length = 18 ∧ r.get_lb.length = 18 ∧ r.get_ub.length = 18 ∧
      r.get_A.length ≠ r.get_nf + 13 := by
  constructor
  · have h := update_isSome_iff ops
      ({ nf_ := 4, A_ := List.replicate 14 Row6.Zero, ub_ := List.replicate 14 0,
         lb_ := List.replicate 14 0, R_ := R, box_ := box_size, mu_ := mu,
         inner_appr_ := inner_appr, min_nforce_ := min_nforce, max_nforce_ := max_nforce } :
        WrenchConeTpl K) R mu box_size min_nforce max_nforce
    have hna : ¬ allocated
        ({ nf_ := 4, A_ := List.replicate 14 Row6.Zero, ub_ := List.replicate 14 0,
           lb_ := List.replicate 14 0, R_ := R, box_ := box_size, mu_ := mu,
           inner_appr_ := inner_appr, min_nforce_ := min_nforce,
           max_nforce_ := max_nforce } : WrenchConeTpl K) := by
      simp [allocated]
    have hs := (not_congr h).2 hna
    simpa [new] using hs
  · obtain ⟨r, e, hnf, hA, _⟩ :=
      new_get_nf ops inner_appr R mu box_size 5 min_nforce max_nforce (Or.inr le_rfl)
    obtain ⟨r2, e2, _, _, _, hlb, hub⟩ :=
      new_bounds ops inner_appr R mu box_size 5 min_nforce max_nforce (Or.inr le_rfl)
    rw [e] at e2
    cases e2
    have hnf4 : r.get_nf = 4 := by simpa using hnf
    refine ⟨r, e, hnf4, hA, ?_, ?_, ?_⟩
    · simp [get_lb, hlb]
    · simp [get_ub, hub]
    · rw [hA, hnf4]; decide

/-- For every even `nf` the constructor returns an object whose `A`, `lb` and `ub` have
exactly `get_nf() + 13` rows. -/
theorem new_rows_even_nf (ops : ScalarOps K) (inner_appr : Bool) (R : Matrix3s K) (mu : K)
    (box_size : Vector2s K) (nf : Nat) (min_nforce max_nforce : K) (h : nf % 2 = 0) :
    ∃ r, new ops inner_appr R mu box_size nf min_nforce max_nforce = some r ∧
      r.get_nf = nf ∧ r.get_A.length = r.get_nf + 13 ∧ r.get_lb.length = r.get_nf + 13 ∧
      r.get_ub.length = r.get_nf + 13 := by
  obtain ⟨r, e, hnf, hA, _⟩ :=
    new_get_nf ops inner_appr R mu box_size nf min_nforce max_nforce (Or.inl h)
  obtain ⟨r2, e2, _, _, _, hlb, hub⟩ :=
    new_bounds ops inner_appr R mu box_size nf min_nforce max_nforce (Or.inl h)
  rw [e] at e2
  cases e2
  have hn : r.get_nf = nf := by simpa [h] using hnf
  refine ⟨r, e, hn, by rw [hA, hn], ?_, ?_⟩
  · simp [get_lb, hlb, hn]
  · simp [get_ub, hub, hn]

/-- C15, as stated, fails: built with `min_nforce = 5` and `max_nforce = 3` (identity
rotation, `mu = 0.7`, box `(0.1, 0.05)`, `nf = 4`, the largest finite `double` as `max`), the
cone has `lb[nf] = 5` and `ub[nf] = 3`, and `get_min_nforce() = 5 > 3 = get_max_nforce()`. -/
theorem new_bounds_unordered :
    (new ⟨Real.cos, Real.sin, Real.pi, 2 ^ 1024 - 2 ^ 971⟩ false Matrix3s.Identity (7 / 10)
        ⟨1 / 10, 5 / 100⟩ 4 5 3).map
      (fun r => (r.get_lb[r.get_nf]?, r.get_ub[r.get_nf]?, r.get_min_nforce, r.get_max_nforce))
      = some (some 5, some 3, 5, 3) ∧
    ¬ ((5 : ℝ) ≤ 3) := by
  obtain ⟨r, e, hnf, hmin, hmax, hlb, hub⟩ :=
    new_bounds ⟨Real.cos, Real.sin, Real.pi, 2 ^ 1024 - 2 ^ 971⟩ false Matrix3s.Identity
      (7 / 10 : ℝ) ⟨1 / 10, 5 / 100⟩ 4 5 3 (Or.inl rfl)
  refine ⟨?_, by norm_num⟩
  rw [e]
  norm_num at hnf hmin hmax hlb hub
  simp [get_lb, get_ub, get_nf, get_min_nforce, get_max_nforce, hnf, hmin, hmax, hlb, hub]

/-- C15, amended: after every `update` on an allocated object, the largest finite scalar
being nonnegative, `lb[i] <= ub[i]` holds for every row `i` other than `nf`; it holds for
the row `nf` too, that is for every row, exactly when
`get_min_nforce() <= get_max_nforce()`, which is the case whenever
`min_nforce <= max_nforce` with `max_nforce >= 0`, and whenever `max_nforce < 0` with
`min_nforce` at most the largest finite scalar. -/
theorem update_bounds_ordered (ops : ScalarOps K) (c : WrenchConeTpl K) (R : Matrix3s K)
    (mu : K) (box_size : Vector2s K) (min_nforce max_nforce : K) (h : c.allocated)
    (hmax : 0 ≤ ops.max) :
    ∃ r, update ops c R mu box_size min_nforce max_nforce = some r ∧
      (∀ (i : Nat) (a b : K), i ≠ r.get_nf → r.get_lb[i]? = some a → r.get_ub[i]? = some b → a ≤ b) ∧
      ((∀ (i : Nat) (a b : K), r.get_lb[i]? = some a → r.get_ub[i]? = some b → a ≤ b) ↔
        r.get_min_nforce ≤ r.get_max_nforce) ∧
      (min_nforce ≤ max_nforce → 0 ≤ max_nforce → r.get_min_nforce ≤ r.get_max_nforce) ∧
      (max_nforce < 0 → min_nforce ≤ ops.max → r.get_min_nforce ≤ r.get_max_nforce) := by
  obtain ⟨r, e, hnf, _, _, _, _, _, hmin, hmx, hlb, hub⟩ :=
    update_allocated ops c R mu box_size min_nforce max_nforce h
  obtain ⟨_, h2, h3⟩ := h
  have hother : ∀ (i : Nat) (a b : K), i ≠ r.get_nf → r.get_lb[i]? = some a → r.get_ub[i]? = some b →
      a ≤ b := by
    intro i a b hne ha hb
    simp only [get_lb, get_ub, get_nf, hlb, hub, hnf] at ha hb hne
    rw [List.getElem?_set_ne (Ne.symm hne)] at ha hb
    simp only [List.getElem?_map, Option.map_eq_some'] at ha hb
    obtain ⟨_, ⟨_, _, rfl⟩, rfl⟩ := ha
    obtain ⟨_, _, rfl⟩ := hb
    simpa using hmax
  have hself_lb : r.get_lb[r.get_nf]? = some r.get_min_nforce := by
    simp only [get_lb, get_nf, get_min_nforce, hlb, hnf, hmin]
    rw [List.getElem?_set_self (by simpa using h3)]
  have hself_ub : r.get_ub[r.get_nf]? = some r.get_max_nforce := by
    simp only [get_ub, get_nf, get_max_nforce, hub, hnf, hmx]
    rw [List.getElem?_set_self (by simpa using h2)]
  refine ⟨r, e, hother, ⟨fun hall => hall _ _ _ hself_lb hself_ub, fun hle i a b ha hb => ?_⟩,
    fun hle hpos => ?_, fun hneg hle => ?_⟩
  · by_cases hi : i = r.get_nf
    · subst hi
      rw [hself_lb] at ha
      rw [hself_ub] at hb
      cases ha
      cases hb
      exact hle
    · exact hother i a b hi ha hb
  · simp only [get_min_nforce, get_max_nforce, hmin, hmx, if_neg (not_lt.2 hpos)]
    split
    · exact hpos
    · exact hle
  · simp only [get_min_nforce, get_max_nforce, hmin, hmx, if_pos hneg]
    split
    · exact hmax
    · exact hle

/-- Witness of the amended C15 on the cone of 17 rows with `nf = 4` over the rationals,
updated with `min_nforce = 1` and `max_nforce = 2`. -/
theorem update_bounds_ordered_witness :
    ∃ r, update (⟨fun _ => 1, fun _ => 0, 3, 1000⟩ : ScalarOps ℚ)
        { nf_ := 4, A_ := List.replicate 17 Row6.Zero, ub_ := List.replicate 17 0,
          lb_ := List.replicate 17 0, R_ := Matrix3s.Identity, box_ := ⟨2, 4⟩, mu_ := 1 / 2,
          inner_appr_ := false, min_nforce_ := 0, max_nforce_ := 5 }
        Matrix3s.Identity (1 / 2) ⟨2, 4⟩ 1 2 = some r ∧
      r.get_min_nforce ≤ r.get_max_nforce := by
  obtain ⟨r, e, _, _, h1, _⟩ := update_bounds_ordered
    (⟨fun _ => 1, fun _ => 0, 3, 1000⟩ : ScalarOps ℚ)
    { nf_ := 4, A_ := List.replicate 17 Row6.Zero, ub_ := List.replicate 17 0,
      lb_ := List.replicate 17 0, R_ := Matrix3s.Identity, box_ := ⟨2, 4⟩, mu_ := 1 / 2,
      inner_appr_ := false, min_nforce_ := 0, max_nforce_ := 5 }
    Matrix3s.Identity (1 / 2) ⟨2, 4⟩ 1 2 (by decide) (by norm_num)
  exact ⟨r, e, h1 (by norm_num) (by norm_num)⟩

end WrenchConeTpl

end WrenchConeBounds

end crocoddyl

namespace crocoddyl

/-! ## The inequalities of the wrench cone with the identity rotation -/

namespace WrenchConeTpl

/-- The cone built with the identity rotation, `nf = 4` and no inner approximation, over the
reals with the exact `cos`, `sin` and `pi`: its rows and upper bounds. -/
theorem new_identity_nf4 (maxS mu mn mx : ℝ) (box : Vector2s ℝ) :
    ∃ r, new ⟨Real.cos, Real.sin, Real.pi, maxS⟩ false Matrix3s.Identity mu box 4 mn mx
        = some r ∧
      r.A_ =
        [⟨⟨1, 0, -mu⟩, ⟨0, 0, 0⟩⟩, ⟨⟨-1, 0, -mu⟩, ⟨0, 0, 0⟩⟩, ⟨⟨0, 1, -mu⟩, ⟨0, 0, 0⟩⟩,
         ⟨⟨0, -1, -mu⟩, ⟨0, 0, 0⟩⟩,
         ⟨⟨0, 0, 1⟩, ⟨0, 0, 0⟩⟩,
         ⟨⟨0, 0, -(box.y / 2)⟩, ⟨1, 0, 0⟩⟩, ⟨⟨0, 0, -(box.y / 2)⟩, ⟨-1, 0, 0⟩⟩,
         ⟨⟨0, 0, -(box.x / 2)⟩, ⟨0, 1, 0⟩⟩, ⟨⟨0, 0, -(box.x / 2)⟩, ⟨0, -1, 0⟩⟩,
         ⟨⟨box.y / 2, box.x / 2, -mu * (box.x / 2 + box.y / 2)⟩, ⟨-mu, -mu, -1⟩⟩,
         ⟨⟨box.y / 2, -(box.x / 2), -mu * (box.x / 2 + box.y / 2)⟩, ⟨-mu, mu, -1⟩⟩,
         ⟨⟨-(box.y / 2), box.x / 2, -mu * (box.x / 2 + box.y / 2)⟩, ⟨mu, -mu, -1⟩⟩,
         ⟨⟨-(box.y / 2), -(box.x / 2), -mu * (box.x / 2 + box.y / 2)⟩, ⟨mu, mu, -1⟩⟩,
         ⟨⟨box.y / 2, box.x / 2, -mu * (box.x / 2 + box.y / 2)⟩, ⟨mu, mu, 1⟩⟩,
         ⟨⟨box.y / 2, -(box.x / 2), -mu * (box.x / 2 + box.y / 2)⟩, ⟨mu, -mu, 1⟩⟩,
         ⟨⟨-(box.y / 2), box.x / 2, -mu * (box.x / 2 + box.y / 2)⟩, ⟨-mu, mu, 1⟩⟩,
         ⟨⟨-(box.y / 2), -(box.x / 2), -mu * (box.x / 2 + box.y / 2)⟩, ⟨-mu, -mu, 1⟩⟩] ∧
      r.ub_ = [0, 0, 0, 0, if mx < 0 then maxS else mx, 0, 0, 0, 0, 0, 0, 0, 0, 0, 0, 0, 0] := by
  obtain ⟨r, e, hA, hub⟩ :=
    new_identity_nf4_ops ⟨Real.cos, Real.sin, Real.pi, maxS⟩ mu mn mx box
  have e1 : (2 : ℝ) * Real.pi / 4 = Real.pi / 2 := by ring
  refine ⟨r, e, ?_, hub⟩
  simpa [e1] using hA

/-- C12, as stated, fails for `Scalar = double`: with the identity rotation, `nf = 4`,
`mu = 1`, the box `(1/2, 1/4)` and the wrench `w = (1, 1, 1, 0, 0, 0)`, the four bounds
`|fx| <= mu*fz`, `|fy| <= mu*fz`, `|tx| <= W*fz`, `|ty| <= L*fz` hold, while the friction
row 2 gives `(A w)[2] = cos(2 * M_PI / 4)`, about `6.1e-17`, which is not `<= 0`. -/
theorem friction_row_double_wrench :
    (new doubleOps false Matrix3s.Identity 1 ⟨1 / 2, 1 / 4⟩ 4 0 100).map
        (fun c => (mulWrench c.get_A ⟨⟨1, 1, 1⟩, ⟨0, 0, 0⟩⟩)[2]?)
      = some (some (4967757600021511 / 2 ^ 106 : ℚ)) ∧
    ¬ ((4967757600021511 / 2 ^ 106 : ℚ) ≤ 0) ∧
    (|(1 : ℚ)| ≤ 1 * 1 ∧ |(1 : ℚ)| ≤ 1 * 1 ∧ |(0 : ℚ)| ≤ 1 / 4 / 2 * 1 ∧
      |(0 : ℚ)| ≤ 1 / 2 / 2 * 1) := by
  obtain ⟨r, e, hA, _⟩ := new_identity_nf4_ops doubleOps 1 0 100 ⟨1 / 2, 1 / 4⟩
  have hne : ¬ (2 * M_PI_double / 4 = 0) := by norm_num [M_PI_double]
  refine ⟨?_, by norm_num, by norm_num, by norm_num, by norm_num, by norm_num⟩
  rw [e]
  simp [get_A, hA, mulWrench, Row6.dot, Vector3s.dot, doubleOps, cosDouble, sinDouble, hne]

/-- C12, amended: with the identity rotation, `nf = 4`, no inner approximation, friction
coefficient `mu`, half-sizes `L = box(0)/2`, `W = box(1)/2`, and with `cos(0) = 1` and
`sin(0) = 0`, for every wrench `w = (fx, fy, fz, tx, ty, tz)`: the upper bound of the
friction rows 0..3 and of the centre-of-pressure rows 5..8 is 0, and `(A w)[i] <= 0` holds
for all these rows if and only if `|fx| <= mu*fz`, `|c*fx + s*fy| <= mu*fz`,
`|tx| <= W*fz` and `|ty| <= L*fz`, for the computed values `c = cos(2 * M_PI / 4)` and
`s = sin(2 * M_PI / 4)`; when `c = 0` and `s = 1` the second bound is `|fy| <= mu*fz`. -/
theorem friction_cop_rows_iff {K : Type} [LinearOrderedField K] (ops : ScalarOps K)
    (mu mn mx : K) (box : Vector2s K) (w : Row6 K)
    (hcos : ops.cos 0 = 1) (hsin : ops.sin 0 = 0) :
    ∃ r, new ops false Matrix3s.Identity mu box 4 mn mx = some r ∧
      (∀ i ∈ [0, 1, 2, 3, 5, 6, 7, 8], r.get_ub[i]? = some 0) ∧
      ((∀ i ∈ [0, 1, 2, 3, 5, 6, 7, 8],
          ∃ a, (mulWrench r.get_A w)[i]? = some a ∧ a ≤ 0) ↔
        (|w.head.x| ≤ mu * w.head.z ∧
          |ops.cos (2 * ops.M_PI / 4) * w.head.x + ops.sin (2 * ops.M_PI / 4) * w.head.y|
            ≤ mu * w.head.z ∧
          |w.tail.x| ≤ box.y / 2 * w.head.z ∧ |w.tail.y| ≤ box.x / 2 * w.head.z)) ∧
      (ops.cos (2 * ops.M_PI / 4) = 0 → ops.sin (2 * ops.M_PI / 4) = 1 →
        ((∀ i ∈ [0, 1, 2, 3, 5, 6, 7, 8],
            ∃ a, (mulWrench r.get_A w)[i]? = some a ∧ a ≤ 0) ↔
          (|w.head.x| ≤ mu * w.head.z ∧ |w.head.y| ≤ mu * w.head.z ∧
            |w.tail.x| ≤ box.y / 2 * w.head.z ∧ |w.tail.y| ≤ box.x / 2 * w.head.z))) := by
  obtain ⟨r, e, hA, hub⟩ := new_identity_nf4_ops ops mu mn mx box
  have key : (∀ i ∈ [0, 1, 2, 3, 5, 6, 7, 8],
        ∃ a, (mulWrench r.get_A w)[i]? = some a ∧ a ≤ 0) ↔
      (|w.head.x| ≤ mu * w.head.z ∧
        |ops.cos (2 * ops.M_PI / 4) * w.head.x + ops.sin (2 * ops.M_PI / 4) * w.head.y|
          ≤ mu * w.head.z ∧
        |w.tail.x| ≤ box.y / 2 * w.head.z ∧ |w.tail.y| ≤ box.x / 2 * w.head.z) := by
    simp only [get_A, hA, hcos, hsin, mulWrench, Row6.dot, Vector3s.dot, abs_le, List.map_cons,
      List.map_nil, List.forall_mem_cons, List.getElem?_cons_zero, List.getElem?_cons_succ]
    simp only [Option.some.injEq, exists_eq_left', List.not_mem_nil, false_implies,
      implies_true, and_true]
    constructor
    · rintro ⟨h0, h1, h2, h3, h5, h6, h7, h8⟩
      refine ⟨⟨?_, ?_⟩, ⟨?_, ?_⟩, ⟨?_, ?_⟩, ⟨?_, ?_⟩⟩ <;> linarith
    · rintro ⟨⟨a1, a2⟩, ⟨b1, b2⟩, ⟨c1, c2⟩, ⟨d1, d2⟩⟩
      refine ⟨?_, ?_, ?_, ?_, ?_, ?_, ?_, ?_⟩ <;> linarith
  refine ⟨r, e, ?_, key, fun hc hs => ?_⟩
  · simp [get_ub, hub]
  · rw [key, hc, hs]
    simp

/-- Witness of the amended C12 for `Scalar = double`, with `mu = 1`, the box `(1/2, 1/4)`
and the wrench `(1, 1, 1, 0, 0, 0)`. -/
theorem friction_cop_rows_iff_witness :
    ∃ r, new doubleOps false Matrix3s.Identity 1 ⟨1 / 2, 1 / 4⟩ 4 0 100 = some r ∧
      (∀ i ∈ [0, 1, 2, 3, 5, 6, 7, 8], r.get_ub[i]? = some 0) := by
  obtain ⟨r, e, hub, _⟩ := friction_cop_rows_iff doubleOps 1 0 100 ⟨1 / 2, 1 / 4⟩
    ⟨⟨1, 1, 1⟩, ⟨0, 0, 0⟩⟩ (by simp [doubleOps, cosDouble]) (by simp [doubleOps, sinDouble])
  exact ⟨r, e, hub⟩

theorem abs_add_abs_le_iff (a b t : ℝ) :
    |a| + |b| ≤ t ↔ (a + b ≤ t ∧ a - b ≤ t ∧ -a + b ≤ t ∧ -a - b ≤ t) := by
  constructor
  · intro h
    have h1 := le_abs_self a
    have h2 := neg_abs_le a
    have h3 := le_abs_self b
    have h4 := neg_abs_le b
    refine ⟨?_, ?_, ?_, ?_⟩ <;> linarith
  · rintro ⟨h1, h2, h3, h4⟩
    rcases abs_cases a with ⟨ha, _⟩ | ⟨ha, _⟩ <;> rcases abs_cases b with ⟨hb, _⟩ | ⟨hb, _⟩ <;>
      rw [ha, hb] <;> linarith

/-- C13: with the identity rotation, `nf = 4`, no inner approximation, friction coefficient
`mu` and half-sizes `L = box(0)/2`, `W = box(1)/2`, for every wrench
`w = (fx, fy, fz, tx, ty, tz)`: the minimum-torque rows 9..12 all satisfy `(A w)[i] <= 0`
if and only if `|W*fx - mu*tx| + |L*fy - mu*ty| - mu*(L+W)*fz <= tz`, and the
maximum-torque rows 13..16 all satisfy it if and only if
`tz <= mu*(L+W)*fz - |W*fx + mu*tx| - |L*fy + mu*ty|`. -/
theorem yaw_rows_iff (maxS mu mn mx : ℝ) (box : Vector2s ℝ) (w : Row6 ℝ) :
    ∃ r, new ⟨Real.cos, Real.sin, Real.pi, maxS⟩ false Matrix3s.Identity mu box 4 mn mx
        = some r ∧
      ((∀ i ∈ [9, 10, 11, 12], ∃ a, (mulWrench r.get_A w)[i]? = some a ∧ a ≤ 0) ↔
        |box.y / 2 * w.head.x - mu * w.tail.x| + |box.x / 2 * w.head.y - mu * w.tail.y|
          - mu * (box.x / 2 + box.y / 2) * w.head.z ≤ w.tail.z) ∧
      ((∀ i ∈ [13, 14, 15, 16], ∃ a, (mulWrench r.get_A w)[i]? = some a ∧ a ≤ 0) ↔
        w.tail.z ≤ mu * (box.x / 2 + box.y / 2) * w.head.z
          - |box.y / 2 * w.head.x + mu * w.tail.x| - |box.x / 2 * w.head.y + mu * w.tail.y|) := by
  obtain ⟨r, e, hA, _⟩ := new_identity_nf4 maxS mu mn mx box
  refine ⟨r, e, ?_, ?_⟩
  · have key := abs_add_abs_le_iff (box.y / 2 * w.head.x - mu * w.tail.x)
      (box.x / 2 * w.head.y - mu * w.tail.y)
      (w.tail.z + mu * (box.x / 2 + box.y / 2) * w.head.z)
    rw [show (|box.y / 2 * w.head.x - mu * w.tail.x| + |box.x / 2 * w.head.y - mu * w.tail.y|
          - mu * (box.x / 2 + box.y / 2) * w.head.z ≤ w.tail.z) ↔
        (|box.y / 2 * w.head.x - mu * w.tail.x| + |box.x / 2 * w.head.y - mu * w.tail.y|
          ≤ w.tail.z + mu * (box.x / 2 + box.y / 2) * w.head.z) from
        ⟨fun h => by linarith, fun h => by linarith⟩, key]
    simp only [get_A, hA, mulWrench, Row6.dot, Vector3s.dot, List.map_cons,
      List.map_nil, List.forall_mem_cons, List.getElem?_cons_zero, List.getElem?_cons_succ]
    simp only [Option.some.injEq, exists_eq_left', List.not_mem_nil, false_implies,
      implies_true, and_true]
    constructor
    · rintro ⟨h1, h2, h3, h4⟩
      refine ⟨?_, ?_, ?_, ?_⟩ <;> linarith
    · rintro ⟨h1, h2, h3, h4⟩
      refine ⟨?_, ?_, ?_, ?_⟩ <;> linarith
  · have key := abs_add_abs_le_iff (box.y / 2 * w.head.x + mu * w.tail.x)
      (box.x / 2 * w.head.y + mu * w.tail.y)
      (mu * (box.x / 2 + box.y / 2) * w.head.z - w.tail.z)
    rw [show (w.tail.z ≤ mu * (box.x / 2 + box.y / 2) * w.head.z
          - |box.y / 2 * w.head.x + mu * w.tail.x| - |box.x / 2 * w.head.y + mu * w.tail.y|) ↔
        (|box.y / 2 * w.head.x + mu * w.tail.x| + |box.x / 2 * w.head.y + mu * w.tail.y|
          ≤ mu * (box.x / 2 + box.y / 2) * w.head.z - w.tail.z) from
        ⟨fun h => by linarith, fun h => by linarith⟩, key]
    simp only [get_A, hA, mulWrench, Row6.dot, Vector3s.dot, List.map_cons,
      List.map_nil, List.forall_mem_cons, List.getElem?_cons_zero, List.getElem?_cons_succ]
    simp only [Option.some.injEq, exists_eq_left', List.not_mem_nil, false_implies,
      implies_true, and_true]
    constructor
    · rintro ⟨h1, h2, h3, h4⟩
      refine ⟨?_, ?_, ?_, ?_⟩ <;> linarith
    · rintro ⟨h1, h2, h3, h4⟩
      refine ⟨?_, ?_, ?_, ?_⟩ <;> linarith

/-! ## The rotation in the rows of the wrench cone -/

/-- The cone built with any matrix `R`, `nf = 4` and no inner approximation, over the reals
with the exact `cos`, `sin` and `pi`: its rows. -/
theorem new_rotation_nf4 (maxS mu mn mx : ℝ) (box : Vector2s ℝ) (R : Matrix3s ℝ) :
    ∃ r, new ⟨Real.cos, Real.sin, Real.pi, maxS⟩ false R mu box 4 mn mx = some r ∧
      r.A_ =
        [⟨Vector3s.transposeMul ⟨1, 0, -mu⟩ R, ⟨0, 0, 0⟩⟩,
         ⟨Vector3s.transposeMul ⟨-1, 0, -mu⟩ R, ⟨0, 0, 0⟩⟩,
         ⟨Vector3s.transposeMul ⟨0, 1, -mu⟩ R, ⟨0, 0, 0⟩⟩,
         ⟨Vector3s.transposeMul ⟨0, -1, -mu⟩ R, ⟨0, 0, 0⟩⟩,
         ⟨R.row 2, ⟨0, 0, 0⟩⟩,
         ⟨Vector3s.scale (-(box.y / 2)) (R.col 2), R.col 0⟩,
         ⟨Vector3s.scale (-(box.y / 2)) (R.col 2), (R.col 0).neg⟩,
         ⟨Vector3s.scale (-(box.x / 2)) (R.col 2), R.col 1⟩,
         ⟨Vector3s.scale (-(box.x / 2)) (R.col 2), (R.col 1).neg⟩,
         ⟨Vector3s.transposeMul ⟨box.y / 2, box.x / 2, -mu * (box.x / 2 + box.y / 2)⟩ R,
          Vector3s.transposeMul ⟨-mu, -mu, -1⟩ R⟩,
         ⟨Vector3s.transposeMul ⟨box.y / 2, -(box.x / 2), -mu * (box.x / 2 + box.y / 2)⟩ R,
          Vector3s.transposeMul ⟨-mu, mu, -1⟩ R⟩,
         ⟨Vector3s.transposeMul ⟨-(box.y / 2), box.x / 2, -mu * (box.x / 2 + box.y / 2)⟩ R,
          Vector3s.transposeMul ⟨mu, -mu, -1⟩ R⟩,
         ⟨Vector3s.transposeMul ⟨-(box.y / 2), -(box.x / 2), -mu * (box.x / 2 + box.y / 2)⟩ R,
          Vector3s.transposeMul ⟨mu, mu, -1⟩ R⟩,
         ⟨Vector3s.transposeMul ⟨box.y / 2, box.x / 2, -mu * (box.x / 2 + box.y / 2)⟩ R,
          Vector3s.transposeMul ⟨mu, mu, 1⟩ R⟩,
         ⟨Vector3s.transposeMul ⟨box.y / 2, -(box.x / 2), -mu * (box.x / 2 + box.y / 2)⟩ R,
          Vector3s.transposeMul ⟨mu, -mu, 1⟩ R⟩,
         ⟨Vector3s.transposeMul ⟨-(box.y / 2), box.x / 2, -mu * (box.x / 2 + box.y / 2)⟩ R,
          Vector3s.transposeMul ⟨-mu, mu, 1⟩ R⟩,
         ⟨Vector3s.transposeMul ⟨-(box.y / 2), -(box.x / 2), -mu * (box.x / 2 + box.y / 2)⟩ R,
          Vector3s.transposeMul ⟨-mu, -mu, 1⟩ R⟩] := by
  have e1 : (2 : ℝ) * Real.pi / 4 = Real.pi / 2 := by ring
  have hr : List.range 2 = [0, 1] := rfl
  simp [new, update, frictionCone, frictionFacet, copRows, yawMinRows, yawMaxRows, writeAt,
    writeHead, Row6.Zero, Vector3s.add, Vector3s.sub, Vector3s.scale, Vector3s.UnitZ,
    Vector3s.transposeMul, List.replicate, hr, e1]

/-- With `nf = 4`, the friction rows, the normal-force row and the yaw rows built with `R`
are those built with the identity right-multiplied by `diag(R, R)`, for every `R`. -/
theorem rows_rotated_nf4 (maxS mu mn mx : ℝ) (box : Vector2s ℝ) (R : Matrix3s ℝ) :
    ∃ r rI, new ⟨Real.cos, Real.sin, Real.pi, maxS⟩ false R mu box 4 mn mx = some r ∧
      new ⟨Real.cos, Real.sin, Real.pi, maxS⟩ false Matrix3s.Identity mu box 4 mn mx
        = some rI ∧
      ∀ i ∈ [0, 1, 2, 3, 4, 9, 10, 11, 12, 13, 14, 15, 16],
        r.get_A[i]? = (rI.get_A.map (fun row => row.mulBlockDiag R))[i]? := by
  obtain ⟨r, e, hA⟩ := new_rotation_nf4 maxS mu mn mx box R
  obtain ⟨rI, eI, hAI, _⟩ := new_identity_nf4 maxS mu mn mx box
  refine ⟨r, rI, e, eI, ?_⟩
  simp [get_A, hA, hAI, Row6.mulBlockDiag, Vector3s.transposeMul, Matrix3s.row]

/-- C16 at the rotation by a quarter turn about the z axis, `nf = 4`: the
centre-of-pressure row 5 built by `update` has torque part `R.col(0) = (0, 1, 0)`, while
the row built with the identity and right-multiplied by `diag(R, R)` has torque part
`R.row(0) = (0, -1, 0)`; the two matrices differ. -/
theorem cop_rows_not_rotated (maxS mu mn mx : ℝ) (box : Vector2s ℝ) :
    ∃ r rI,
      new ⟨Real.cos, Real.sin, Real.pi, maxS⟩ false ⟨⟨0, -1, 0⟩, ⟨1, 0, 0⟩, ⟨0, 0, 1⟩⟩ mu box 4
        mn mx = some r ∧
      new ⟨Real.cos, Real.sin, Real.pi, maxS⟩ false Matrix3s.Identity mu box 4 mn mx
        = some rI ∧
      r.get_A[5]? = some ⟨⟨0, 0, -(box.y / 2)⟩, ⟨0, 1, 0⟩⟩ ∧
      (rI.get_A.map
          (fun row => row.mulBlockDiag ⟨⟨0, -1, 0⟩, ⟨1, 0, 0⟩, ⟨0, 0, 1⟩⟩))[5]?
        = some ⟨⟨0, 0, -(box.y / 2)⟩, ⟨0, -1, 0⟩⟩ ∧
      r.get_A ≠ rI.get_A.map
        (fun row => row.mulBlockDiag ⟨⟨0, -1, 0⟩, ⟨1, 0, 0⟩, ⟨0, 0, 1⟩⟩) := by
  obtain ⟨r, e, hA⟩ := new_rotation_nf4 maxS mu mn mx box ⟨⟨0, -1, 0⟩, ⟨1, 0, 0⟩, ⟨0, 0, 1⟩⟩
  obtain ⟨rI, eI, hAI, _⟩ := new_identity_nf4 maxS mu mn mx box
  have h5 : r.get_A[5]? = some ⟨⟨0, 0, -(box.y / 2)⟩, ⟨0, 1, 0⟩⟩ := by
    simp [get_A, hA, Vector3s.scale, Matrix3s.col]
  have h5I : (rI.get_A.map
      (fun row => row.mulBlockDiag ⟨⟨0, -1, 0⟩, ⟨1, 0, 0⟩, ⟨0, 0, 1⟩⟩))[5]?
        = some ⟨⟨0, 0, -(box.y / 2)⟩, ⟨0, -1, 0⟩⟩ := by
    simp [get_A, hAI, Row6.mulBlockDiag, Vector3s.transposeMul]
  refine ⟨r, rI, e, eI, h5, h5I, fun h => ?_⟩
  rw [h, h5I] at h5
  simp only [Option.some.injEq, Row6.mk.injEq, Vector3s.mk.injEq] at h5
  norm_num at h5

end WrenchConeTpl

end crocoddyl
